import Mathlib

/-!
# Verification of the content-factory audio/video composition pipeline

Shallow embedding, in Lean 4, of the algorithmic core of the repository:

* the waveform/envelope synthesizer of `src/server/content-generator.js`
  (`applyEnvelope`, `lowpass`, `mix`, `normalize`, `writeWav`);
* the browser audio mixer of `src/unnamed/part_000`
  (`AudioMixer._normalizeBuffer`, `AudioMixer._bufferToWav`);
* the avatar animation state machine of `src/unnamed/part_000`
  (`KiarosXAvatar.setState`, `KiarosXAvatar.update`, `KiarosXAvatar.getState`);
* the caption word-reveal functions of `src/generate-samples-final.js`
  (`drawCaption`) and `src/unnamed/part_001` (`VideoRenderer.drawCaption`);
* the headless batch frame loop of `src/generate-samples-final.js`
  (`generateVideo`, `drawBackground`, `drawAvatar`).

Conventions: JavaScript float samples are modelled as exact rationals `ℚ`;
`Math.floor` is `Int.floor`; transcendental library calls (`Math.sin`,
`Math.PI`) and environment functions (canvas text metrics, wall clocks,
`Math.random` draws) are passed in as explicit parameters, so every
definition stays computable and the dependence of each code path on its
environment is visible in its type.  Mutable `Float32Array` code is
modelled twice where a claim needs it: as a pure function on `List ℚ`
for value claims, and on an explicit store (`List (List ℚ)` addressed by
buffer references) for allocation / in-place-mutation claims.
-/

namespace ContentFactory

/-! ## Waveform/envelope synthesizer (src/server/content-generator.js) -/

/-- `const SAMPLE_RATE = 44100;` (content-generator.js line 420). -/
def SAMPLE_RATE : ℚ := 44100

/-- Number of samples of a stage lasting `t` seconds:
`Math.floor(t * SAMPLE_RATE)` (content-generator.js lines 487-489). -/
def stageSamples (t : ℚ) : ℤ := ⌊t * SAMPLE_RATE⌋

/-- The per-sample amplitude multiplier computed inside `applyEnvelope`
(content-generator.js lines 492-502): linear attack ramp, linear decay
ramp down to `sustain`, flat sustain hold of length
`buffer.length - attackSamples - decaySamples - releaseSamples`,
then a linear release ramp from `sustain` toward 0. -/
def adsrAmp (len : ℕ) (attack decay sustain release : ℚ) (i : ℕ) : ℚ :=
  let aS : ℤ := stageSamples attack
  let dS : ℤ := stageSamples decay
  let rS : ℤ := stageSamples release
  let sS : ℤ := (len : ℤ) - aS - dS - rS
  if (i : ℤ) < aS then
    (i : ℚ) / (aS : ℚ)
  else if (i : ℤ) < aS + dS then
    1 - (1 - sustain) * ((i : ℚ) - (aS : ℚ)) / (dS : ℚ)
  else if (i : ℤ) < aS + dS + sS then
    sustain
  else
    sustain * (1 - ((i : ℚ) - (aS : ℚ) - (dS : ℚ) - (sS : ℚ)) / (rS : ℚ))

/-- `applyEnvelope(buffer, attack, decay, sustain, release, duration)`
(content-generator.js lines 485-506).  Allocates a result of the same
length and sets `result[i] = buffer[i] * Math.max(0, amp)`.
The `duration` parameter is unused, exactly as in the source. -/
def applyEnvelope (buffer : List ℚ) (attack decay sustain release duration : ℚ) :
    List ℚ :=
  (List.range buffer.length).map fun i =>
    buffer.getD i 0 * max 0 (adsrAmp buffer.length attack decay sustain release i)

/-- One iteration of the outer loop of `mix` (content-generator.js lines
524-529): add buffer number `i` (gain `gains ? gains[i] : 1`) into the
accumulator, position by position.  Sample values are `Option ℚ`: `none`
models the JavaScript `NaN` produced by reading past the end of a buffer
(`buffers[i][j]` is `undefined` for `j ≥ buffers[i].length`, and
`undefined * gain` is `NaN`, which then contaminates the sum). -/
def mixLoop (length : ℕ) (gains : Option (List ℚ)) :
    ℕ → List (List ℚ) → List (Option ℚ) → List (Option ℚ)
  | _, [], acc => acc
  | i, b :: rest, acc =>
    let g : Option ℚ :=
      match gains with
      | none => some 1
      | some gs => gs.get? i
    mixLoop length gains (i + 1) rest
      ((List.range length).map fun j =>
        match acc.getD j none, b.get? j, g with
        | some av, some bv, some gv => some (av + bv * gv)
        | _, _, _ => none)

/-- `mix(buffers, gains)` (content-generator.js lines 520-531).  Returns
`new Float32Array(0)` on an empty buffer list; otherwise sizes the result
to `buffers[0].length` and accumulates every buffer scaled by its gain.
There is no length validation of any kind. -/
def mix (buffers : List (List ℚ)) (gains : Option (List ℚ)) : List (Option ℚ) :=
  match buffers with
  | [] => []
  | b0 :: _ =>
    mixLoop b0.length gains 0 buffers (List.replicate b0.length (some 0))

/-- The error taxonomy entry the spec assigns to mixing buffers of
differing sample counts (spec section 7). -/
inductive AudioError where
  | lengthMismatch
  deriving DecidableEq, Repr

/-- Modelled from the spec (section 4.1 / 7), for comparison with `mix`:
"Mixing combines N buffers of equal length with per-buffer gain weights
by sample-wise weighted sum; buffers of unequal length are a caller error
(fails with LengthMismatch)."  This is the specified behaviour, not the
code's. -/
def mixSpec (buffers : List (List ℚ)) (gains : List ℚ) :
    Except AudioError (List ℚ) :=
  let length := (buffers.headD []).length
  if buffers.all (fun b => b.length = length) then
    Except.ok ((List.range length).map fun j =>
      (List.zipWith (fun (b : List ℚ) (g : ℚ) => b.getD j 0 * g) buffers gains).sum)
  else
    Except.error AudioError.lengthMismatch

/-- The `max` loop of `normalize` (content-generator.js lines 534-537):
peak absolute sample of a buffer, 0 for the empty buffer. -/
def peak (buffer : List ℚ) : ℚ :=
  buffer.foldl (fun m x => max m |x|) 0

/-- `normalize(buffer, target = 0.95)` (content-generator.js lines
533-545).  If the peak is 0 the input buffer itself is returned;
otherwise a new buffer scaled by `target / max`. -/
def normalize (buffer : List ℚ) (target : ℚ := 19/20) : List ℚ :=
  if peak buffer = 0 then buffer
  else buffer.map fun x => x * (target / peak buffer)

/-! ## WAV container writers

`writeWav` (content-generator.js lines 556-579) and
`AudioMixer._bufferToWav` (part_000 lines 518-566), as byte lists. -/

/-- Little-endian bytes of a 16-bit write: `buffer.writeUInt16LE` /
`DataView.setUint16(..., true)`. -/
def u16le (v : ℕ) : List ℕ :=
  [v % 256, v / 256 % 256]

/-- Little-endian bytes of a 32-bit write: `buffer.writeUInt32LE` /
`DataView.setUint32(..., true)`. -/
def u32le (v : ℕ) : List ℕ :=
  [v % 256, v / 256 % 256, v / 65536 % 256, v / 16777216 % 256]

/-- Little-endian two's-complement bytes of a 16-bit signed write
(`buffer.writeInt16LE` / `DataView.setInt16(..., true)`), for values in
`[-32768, 32767]`. -/
def i16le (v : ℤ) : List ℕ :=
  u16le (v % 65536).toNat

/-- ASCII bytes of a chunk descriptor string (`buffer.write('RIFF', 0)` /
`_writeString`). -/
def strBytes (s : String) : List ℕ :=
  s.data.map Char.toNat

/-- The per-sample quantizer of `writeWav` (content-generator.js lines
573-574): `Math.max(-32768, Math.min(32767, Math.floor(x * 32767)))` —
the clamp is applied to the already-quantized integer. -/
def quant (x : ℚ) : ℤ :=
  max (-32768) (min 32767 ⌊x * 32767⌋)

/-- The header bytes written by `writeWav` (content-generator.js lines
559-571, offsets 0-43): RIFF chunk size `36 + length*4`, `WAVE`,
`fmt ` subchunk of size 16, PCM format 1, 2 channels, sample rate,
byte rate `sampleRate*4`, block align 4, 16 bits per sample, `data`
subchunk of size `length*4`. -/
def writeWavHeader (length sampleRate : ℕ) : List ℕ :=
  strBytes "RIFF" ++ u32le (36 + length * 4) ++
  strBytes "WAVE" ++ strBytes "fmt " ++
  u32le 16 ++ u16le 1 ++ u16le 2 ++
  u32le sampleRate ++ u32le (sampleRate * 4) ++
  u16le 4 ++ u16le 16 ++
  strBytes "data" ++ u32le (length * 4)

/-- `writeWav(leftChannel, rightChannel, sampleRate)` (content-generator.js
lines 556-579): the 44-byte header followed by the sample loop writing,
for each frame `i`, the quantized left sample then the quantized right
sample, each as little-endian int16. -/
def writeWav (leftChannel rightChannel : List ℚ) (sampleRate : ℕ) : List ℕ :=
  writeWavHeader leftChannel.length sampleRate ++
  (List.range leftChannel.length).flatMap fun i =>
    i16le (quant (leftChannel.getD i 0)) ++ i16le (quant (rightChannel.getD i 0))

/-- Truncation toward zero, the conversion `DataView.setInt16` applies to
a non-integral JavaScript number. -/
def truncQ (q : ℚ) : ℤ :=
  if q < 0 then ⌈q⌉ else ⌊q⌋

/-- The per-sample quantizer of `_bufferToWav` (part_000 lines 558-559):
`sample = Math.max(-1, Math.min(1, x))` — clamped to `[-1, 1]` *before*
scaling — then `sample < 0 ? sample * 0x8000 : sample * 0x7FFF`. -/
def quantB (x : ℚ) : ℤ :=
  let sample := max (-1) (min 1 x)
  truncQ (if sample < 0 then sample * 32768 else sample * 32767)

/-- The header bytes written by `_bufferToWav` (part_000 lines 533-546):
format 1, `numChannels = buffer.numberOfChannels`, 16-bit,
`blockAlign = numChannels * 2`, `dataLength = len * blockAlign`. -/
def bufferToWavHeader (numChannels len sampleRate : ℕ) : List ℕ :=
  strBytes "RIFF" ++ u32le (36 + len * (numChannels * 2)) ++
  strBytes "WAVE" ++ strBytes "fmt " ++
  u32le 16 ++ u16le 1 ++ u16le numChannels ++
  u32le sampleRate ++ u32le (sampleRate * (numChannels * 2)) ++
  u16le (numChannels * 2) ++ u16le 16 ++
  strBytes "data" ++ u32le (len * (numChannels * 2))

/-- `AudioMixer._bufferToWav(buffer)` (part_000 lines 518-566).
`channels` is the list of per-channel data arrays
(`buffer.getChannelData(i)`), `len` is `buffer.length` (the per-channel
sample count) and `sampleRate` is `buffer.sampleRate`: the header
followed by the interleaved sample loop (channel 0 first within each
frame, each sample clamped to `[-1,1]` then scaled). -/
def bufferToWav (channels : List (List ℚ)) (len sampleRate : ℕ) : List ℕ :=
  bufferToWavHeader channels.length len sampleRate ++
  (List.range len).flatMap fun i =>
    channels.flatMap fun ch => i16le (quantB (ch.getD i 0))

/-! ## Heap model for allocation / in-place mutation

`Float32Array` code is re-expressed over an explicit store: a list of
buffers addressed by index.  `new Float32Array(n)` appends a fresh
zero-filled buffer and returns its reference; element writes go through
`writeBuf`.  This makes "returns a newly allocated buffer" and "mutates
a shared buffer in place" (claims about aliasing) directly statable. -/

/-- A store of float buffers; a buffer reference is an index into it. -/
abbrev Store := List (List ℚ)

/-- Read `store[r][i]` (0 for an out-of-range read, which only happens on
empty inputs in the modelled code). -/
def readBuf (st : Store) (r i : ℕ) : ℚ :=
  (st.getD r []).getD i 0

/-- Write `store[r][i] = v`; out-of-range writes are dropped, as for a
JavaScript typed array. -/
def writeBuf (st : Store) (r i : ℕ) (v : ℚ) : Store :=
  st.set r ((st.getD r []).set i v)

/-- `store[r].length`. -/
def lenBuf (st : Store) (r : ℕ) : ℕ :=
  (st.getD r []).length

/-- `new Float32Array(n)`: a fresh zero-filled buffer and its reference. -/
def allocBuf (st : Store) (n : ℕ) : Store × ℕ :=
  (st ++ [List.replicate n 0], st.length)

/-- `lowpass(buffer, cutoff, sampleRate)` (content-generator.js lines
508-518) over the store: allocate `result`, copy sample 0, then the
one-pole recurrence `result[i] = result[i-1] + alpha * (buffer[i] -
result[i-1])`.  `mathPi` stands for `Math.PI`. -/
def lowpassSt (mathPi : ℚ) (st : Store) (b : ℕ) (cutoff sampleRate : ℚ) :
    Store × ℕ :=
  let rc := 1 / (2 * mathPi * cutoff)
  let dt := 1 / sampleRate
  let alpha := dt / (rc + dt)
  let n := lenBuf st b
  let alloc := allocBuf st n
  let r := alloc.2
  let st1 := writeBuf alloc.1 r 0 (readBuf alloc.1 b 0)
  ((List.range (n - 1)).foldl
    (fun s k =>
      writeBuf s r (k + 1)
        (readBuf s r k + alpha * (readBuf s b (k + 1) - readBuf s r k)))
    st1, r)

/-- `applyEnvelope` (content-generator.js lines 485-506) over the store:
allocate `result` of the input's length and fill it sample by sample. -/
def applyEnvelopeSt (st : Store) (b : ℕ)
    (attack decay sustain release : ℚ) : Store × ℕ :=
  let n := lenBuf st b
  let alloc := allocBuf st n
  let r := alloc.2
  ((List.range n).foldl
    (fun s i =>
      writeBuf s r i
        (readBuf s b i * max 0 (adsrAmp n attack decay sustain release i)))
    alloc.1, r)

/-- `normalize` (content-generator.js lines 533-545) over the store: scan
for the peak; `if (max === 0) return buffer;` returns the *input
reference itself*; otherwise allocate `result` and fill it scaled by
`target / max`. -/
def normalizeSt (st : Store) (b : ℕ) (target : ℚ) : Store × ℕ :=
  let m := peak (st.getD b [])
  if m = 0 then (st, b)
  else
    let n := lenBuf st b
    let alloc := allocBuf st n
    let r := alloc.2
    ((List.range n).foldl
      (fun s i => writeBuf s r i (readBuf s b i * (target / m)))
      alloc.1, r)

/-- `AudioMixer._normalizeBuffer(buffer)` (part_000 lines 493-512) over
the store: `chans` are the references of the buffer's channel-data
arrays.  Scan all channels for the peak; if it exceeds 1, scale every
sample of every channel *in place* (`data[i] *= scale`) by
`0.99 / max`.  No allocation, no return value. -/
def normalizeBufferSt (st : Store) (chans : List ℕ) : Store :=
  let m := chans.foldl (fun acc ch => (st.getD ch []).foldl (fun a x => max a |x|) acc) 0
  if 1 < m then
    let scale := (99/100) / m
    chans.foldl
      (fun s ch =>
        (List.range (lenBuf s ch)).foldl
          (fun s2 i => writeBuf s2 ch i (readBuf s2 ch i * scale)) s)
      st
  else st

/-! ## Avatar animation state machine (src/unnamed/part_000, KiarosXAvatar) -/

/-- One entry of `this.states` (part_000 lines 674-702): the fixed bundle
of animation parameters of a state. -/
structure StateConfig where
  rotationSpeed : ℚ
  pulseDuration : ℚ
  particleCount : ℕ
  particleSpeed : ℚ
  glowIntensity : ℚ
  latticeBrightness : ℚ
  energySpikes : Bool
  deriving DecidableEq, Repr

/-- `this.states.idle` (part_000 lines 675-683). -/
def idleConfig : StateConfig :=
  { rotationSpeed := 1/200, pulseDuration := 4200, particleCount := 12,
    particleSpeed := 3/10, glowIntensity := 2/5, latticeBrightness := 3/5,
    energySpikes := false }

/-- `this.states.talking` (part_000 lines 684-692). -/
def talkingConfig : StateConfig :=
  { rotationSpeed := 3/200, pulseDuration := 1800, particleCount := 20,
    particleSpeed := 4/5, glowIntensity := 4/5, latticeBrightness := 1,
    energySpikes := false }

/-- `this.states.executing` (part_000 lines 693-701). -/
def executingConfig : StateConfig :=
  { rotationSpeed := 7/200, pulseDuration := 900, particleCount := 35,
    particleSpeed := 3/2, glowIntensity := 1, latticeBrightness := 1,
    energySpikes := true }

/-- The property lookup `this.states[state]` of `setState` (part_000 line
766): `setState` takes an arbitrary string and finds a configuration only
for the three defined state names. -/
def statesLookup (state : String) : Option StateConfig :=
  if state = "idle" then some idleConfig
  else if state = "talking" then some talkingConfig
  else if state = "executing" then some executingConfig
  else none

/-- An ambient particle (part_000 lines 754-761). -/
structure Particle where
  angle : ℚ
  distance : ℚ
  speed : ℚ
  size : ℚ
  phase : ℚ
  deriving DecidableEq, Repr

/-- A talking/spike ripple (part_000 lines 818-822, 835-840). -/
structure SoundWave where
  radius : ℚ
  opacity : ℚ
  expansionRate : ℚ
  isSpike : Bool
  deriving DecidableEq, Repr

/-- The observable animation state of a `KiarosXAvatar` (part_000 lines
704-719, 743): the fields read and written by `setState` and `update`.
Canvas handles, screen position and timer bookkeeping are omitted. -/
structure Avatar where
  currentState : String
  stateConfig : StateConfig
  pulsePhase : ℚ
  rotationAngle : ℚ
  time : ℚ
  particles : List Particle
  soundWaves : List SoundWave
  radius : ℚ
  deriving DecidableEq, Repr

/-- The observable outcome of a `setState` call: either the transition is
applied, or the unknown name is rejected with the
`console.warn('Unknown state: ...')` + early-return branch (part_000
lines 766-769). -/
inductive SetStateOutcome where
  | ok
  | unknownState
  deriving DecidableEq, Repr

/-- `KiarosXAvatar.setState(state)` (part_000 lines 765-776): reject
unknown names untouched; for a known name install the name and its
configuration bundle and reset `pulsePhase` to 0. -/
def setState (a : Avatar) (state : String) : Avatar × SetStateOutcome :=
  match statesLookup state with
  | none => (a, SetStateOutcome.unknownState)
  | some cfg =>
    ({ a with currentState := state, stateConfig := cfg, pulsePhase := 0 },
     SetStateOutcome.ok)

/-- `KiarosXAvatar.getState()` (part_000 lines 1126-1128). -/
def getState (a : Avatar) : String :=
  a.currentState

/-- The per-particle step of `update` (part_000 lines 808-812), for an
active particle: `p.angle += p.speed * particleSpeed;
p.distance = radius * (1.1 + Math.sin(time * 0.001 + p.phase) * 0.15)`.
`msin` stands for `Math.sin`. -/
def updateParticle (msin : ℚ → ℚ) (time radius particleSpeed : ℚ)
    (p : Particle) : Particle :=
  { p with
    angle := p.angle + p.speed * particleSpeed,
    distance := radius * (11/10 + msin (time * (1/1000) + p.phase) * (3/20)) }

/-- The ripple advance-and-filter pass of `update` (part_000 lines
827-831): each wave's radius grows by `expansionRate * dt * 0.06`, its
opacity drops by `0.02 * dt * 0.06`, and waves with opacity ≤ 0 are
removed. -/
def stepWaves (dt : ℚ) (waves : List SoundWave) : List SoundWave :=
  (waves.map fun w =>
    { w with
      radius := w.radius + w.expansionRate * (dt * (3/50)),
      opacity := w.opacity - (1/50) * (dt * (3/50)) }).filter
    fun w => 0 < w.opacity

/-- The particle loop of `update` (part_000 lines 807-812),
`for (let i = 0; i < activeParticles; i++)`, as a recursion carrying the
loop index: particles with index below `particleCount` are advanced, the
rest stay parked. -/
def updateParticles (msin : ℚ → ℚ) (time radius : ℚ) (cfg : StateConfig) :
    ℕ → List Particle → List Particle
  | _, [] => []
  | i, p :: ps =>
    (if i < cfg.particleCount then
      updateParticle msin time radius cfg.particleSpeed p
    else p) :: updateParticles msin time radius cfg (i + 1) ps

/-- `KiarosXAvatar.update(deltaTime)` (part_000 lines 797-842).  `mathPi`
and `msin` stand for `Math.PI` / `Math.sin`; `rTalk` and `rSpike` are the
two `Math.random()` draws (talking-ripple spawn, line 817, and
energy-spike spawn, line 834). -/
def update (mathPi : ℚ) (msin : ℚ → ℚ) (rTalk rSpike : ℚ)
    (a : Avatar) (deltaTime : ℚ) : Avatar :=
  let time := a.time + deltaTime
  let rotationAngle := a.rotationAngle + a.stateConfig.rotationSpeed * deltaTime * (3/50)
  let pulsePhase := a.pulsePhase + (deltaTime / a.stateConfig.pulseDuration) * mathPi * 2
  let particles := updateParticles msin time a.radius a.stateConfig 0 a.particles
  let waves1 :=
    if a.currentState = "talking" ∧ rTalk < 1/20 then
      a.soundWaves ++ [{ radius := a.radius, opacity := 1, expansionRate := 2,
                         isSpike := false }]
    else a.soundWaves
  let waves2 := stepWaves deltaTime waves1
  let waves3 :=
    if a.stateConfig.energySpikes ∧ rSpike < 1/10 then
      waves2 ++ [{ radius := a.radius, opacity := 4/5, expansionRate := 4,
                   isSpike := true }]
    else waves2
  { a with
    time := time, rotationAngle := rotationAngle, pulsePhase := pulsePhase,
    particles := particles, soundWaves := waves3 }

/-! ## Caption word reveal -/

/-- The visible-word computation of the batch `drawCaption`
(generate-samples-final.js lines 265-270):
`wordsPerFrame = words.length / totalFrames;
visibleWordCount = Math.min(Math.floor(frameNum * wordsPerFrame) + 3,
words.length)`. -/
def visibleWordCount (wordCount frameNum totalFrames : ℕ) : ℕ :=
  min ((⌊(frameNum * wordCount : ℚ) / (totalFrames : ℚ)⌋).toNat + 3) wordCount

/-- The visible-word computation of `VideoRenderer.drawCaption` in
typewriter mode (part_001 lines 339-341):
`wordsToShow = Math.floor(elapsedTime / this.textSpeed)`, then
`words.slice(0, wordsToShow)` (which caps at the word count).  There is
no lead-in term. -/
def vrVisibleWords (elapsedTime textSpeed : ℚ) (wordCount : ℕ) : ℕ :=
  min (⌊elapsedTime / textSpeed⌋).toNat wordCount

/-- The visible substring of `VideoRenderer.drawCaption` in typewriter
mode (part_001 lines 336-341): `caption.split(' ')`, take
`Math.floor(elapsedTime / textSpeed)` words, re-join with spaces. -/
def vrTextToShow (caption : String) (elapsedTime textSpeed : ℚ) : String :=
  String.intercalate " "
    ((caption.splitOn " ").take (⌊elapsedTime / textSpeed⌋).toNat)

/-! ## Headless batch frame compositor (src/generate-samples-final.js)

Each frame is modelled as the sequence of canvas drawing commands it
issues, with their numeric arguments.  Identical command sequences give
byte-identical pixel content, so determinism of the pixel content is
stated as equality of command sequences.  `mathPi`/`msin` stand for
`Math.PI`/`Math.sin`, and `measure` for the canvas text metrics
`ctx.measureText(...).width` — fixed properties of the rendering
environment. -/

/-- One canvas command: a plain call with numeric arguments, a string
state assignment (`fillStyle = ...`), or a call carrying a string
argument (`strokeText`, `addColorStop`). -/
inductive DrawOp where
  | cmd (name : String) (args : List ℚ)
  | style (name : String) (value : String)
  | cmdS (name : String) (text : String) (args : List ℚ)
  deriving DecidableEq, Repr

/-- JavaScript `%` on the nonnegative operands used by the pattern
backgrounds. -/
def jsMod (a b : ℚ) : ℚ :=
  a - b * ⌊a / b⌋

/-- Iterations of `for (v = start; v < bound; v += step)`. -/
def countLt (start step bound : ℚ) : ℕ :=
  if start < bound then (⌈(bound - start) / step⌉).toNat else 0

/-- Iterations of `for (v = start; v <= bound; v += step)`. -/
def countLe (start step bound : ℚ) : ℕ :=
  if start ≤ bound then (⌊(bound - start) / step⌋).toNat + 1 else 0

/-- The background descriptor of a sample video config
(generate-samples-final.js lines 20-56): `background.type`, with the two
gradient colors for the `'gradient'` type. -/
inductive Background where
  | gradient (c0 c1 : String)
  | darkPattern
  | techGrid
  deriving DecidableEq, Repr

/-- `drawBackground(ctx, width, height, background, progress)`
(generate-samples-final.js lines 130-204), as its command sequence. -/
def drawBackground (mathPi : ℚ) (msin : ℚ → ℚ) (width height : ℚ)
    (background : Background) (progress : ℚ) : List DrawOp :=
  match background with
  | Background.gradient c0 c1 =>
    [DrawOp.cmd "createLinearGradient" [0, 0, 0, height],
     DrawOp.cmdS "addColorStop" c0 [0],
     DrawOp.cmdS "addColorStop" c1 [1],
     DrawOp.cmd "fillRect" [0, 0, width, height]]
  | Background.darkPattern =>
    [DrawOp.style "fillStyle" "#0f0f1a",
     DrawOp.cmd "fillRect" [0, 0, width, height],
     DrawOp.style "strokeStyle" "rgba(255, 255, 255, 0.05)",
     DrawOp.cmd "lineWidth" [2]] ++
    ((List.range 15).flatMap fun i =>
      let y := jsMod ((i : ℚ) * 140 + progress * 200) (height + 200) - 100
      [DrawOp.cmd "moveTo" [0, y],
       DrawOp.cmd "lineTo" [width, y + 80],
       DrawOp.cmd "stroke" []]) ++
    [DrawOp.style "strokeStyle" "rgba(79, 70, 229, 0.1)",
     DrawOp.cmd "lineWidth" [3]] ++
    ((List.range 5).flatMap fun i =>
      let x := jsMod ((i : ℚ) * 250 + 100) width
      let y := jsMod ((i : ℚ) * 350 + 200) height
      let size := 50 + msin (progress * mathPi * 2 + (i : ℚ)) * 20
      [DrawOp.cmd "strokeRect" [x - size/2, y - size/2, size, size]])
  | Background.techGrid =>
    [DrawOp.style "fillStyle" "#0a0a12",
     DrawOp.cmd "fillRect" [0, 0, width, height],
     DrawOp.style "strokeStyle" "rgba(6, 182, 212, 0.15)",
     DrawOp.cmd "lineWidth" [1]] ++
    ((List.range (countLe 0 60 width)).flatMap fun k =>
      let x := (60 : ℚ) * (k : ℚ)
      [DrawOp.cmd "moveTo" [x, 0],
       DrawOp.cmd "lineTo" [x, height],
       DrawOp.cmd "stroke" []]) ++
    ((List.range (countLe 0 60 height)).flatMap fun k =>
      let y := (60 : ℚ) * (k : ℚ)
      let offset := jsMod (y + progress * 60) height
      [DrawOp.cmd "moveTo" [0, offset],
       DrawOp.cmd "lineTo" [width, offset],
       DrawOp.cmd "stroke" []]) ++
    [DrawOp.style "fillStyle" "rgba(6, 182, 212, 0.3)"] ++
    ((List.range (countLt 60 180 width)).flatMap fun kx =>
      (List.range (countLt 60 180 height)).flatMap fun ky =>
        let x := (60 : ℚ) + 180 * (kx : ℚ)
        let y := (60 : ℚ) + 180 * (ky : ℚ)
        let pulse := msin (progress * mathPi * 4 + x * (1/100) + y * (1/100)) * (1/2) + 1/2
        [DrawOp.cmd "globalAlpha" [1/5 + pulse * (3/10)],
         DrawOp.cmd "arc" [x, y, 4 * pulse, 0, mathPi * 2],
         DrawOp.cmd "fill" []]) ++
    [DrawOp.cmd "globalAlpha" [1]]

/-- `wrapText(ctx, text, maxWidth)` (generate-samples-final.js lines
108-125): greedy line fill driven by `ctx.measureText`. -/
def wrapText (measure : String → ℚ) (text : String) (maxWidth : ℚ) :
    List String :=
  match text.splitOn " " with
  | [] => [""]
  | w0 :: rest =>
    let fin := rest.foldl
      (fun (acc : List String × String) word =>
        if measure (acc.2 ++ " " ++ word) < maxWidth then
          (acc.1, acc.2 ++ " " ++ word)
        else (acc.1 ++ [acc.2], word))
      ([], w0)
    fin.1 ++ [fin.2]

/-- `drawCaption(ctx, caption, frameNum, totalFrames, width, height)`
(generate-samples-final.js lines 258-292): typewriter reveal of
`visibleWordCount` words, word-wrapped at 950px, stroke pass then fill
pass. -/
def drawCaption (measure : String → ℚ) (caption : String)
    (frameNum totalFrames : ℕ) (width height : ℚ) : List DrawOp :=
  let words := caption.splitOn " "
  let visibleText :=
    String.intercalate " " (words.take (visibleWordCount words.length frameNum totalFrames))
  let lines := wrapText measure visibleText 950
  let x := width / 2
  let y := height - 350
  [DrawOp.style "font" "bold 52px Arial, sans-serif",
   DrawOp.style "textAlign" "center",
   DrawOp.cmd "lineWidth" [10],
   DrawOp.style "strokeStyle" "#000000",
   DrawOp.style "lineJoin" "round"] ++
  (lines.mapIdx fun i line => DrawOp.cmdS "strokeText" line [x, y + (i : ℚ) * 70]) ++
  [DrawOp.style "fillStyle" "#ffffff"] ++
  (lines.mapIdx fun i line => DrawOp.cmdS "fillText" line [x, y + (i : ℚ) * 70])

/-- `drawAvatar(ctx, x, y, size, frameNum)` (generate-samples-final.js
lines 209-253). -/
def drawAvatarOps (mathPi : ℚ) (msin : ℚ → ℚ) (x y size : ℚ)
    (frameNum : ℕ) : List DrawOp :=
  let talkPhase := msin ((frameNum : ℚ) * (3/10)) * (1/2) + 1/2
  let pulseSize := msin ((frameNum : ℚ) * (3/20)) * 3
  [DrawOp.cmd "save" [],
   DrawOp.cmd "arc" [x + size/2, y + size/2, size/2, 0, mathPi * 2],
   DrawOp.cmd "clip" [],
   DrawOp.cmd "createLinearGradient" [x, y, x, y + size],
   DrawOp.cmdS "addColorStop" "#4a90d9" [0],
   DrawOp.cmdS "addColorStop" "#2c5aa0" [1],
   DrawOp.cmd "fillRect" [x, y, size, size],
   DrawOp.style "fillStyle" "#ffffff",
   DrawOp.cmd "arc" [x + size * (7/20), y + size * (7/20), size * (1/10), 0, mathPi * 2],
   DrawOp.cmd "arc" [x + size * (13/20), y + size * (7/20), size * (1/10), 0, mathPi * 2],
   DrawOp.cmd "fill" [],
   DrawOp.style "fillStyle" "#ffffff",
   DrawOp.cmd "ellipse" [x + size * (1/2), y + size * (13/20), size * (3/20),
                         size * (2/25) * talkPhase + 2, 0, 0, mathPi * 2],
   DrawOp.cmd "fill" [],
   DrawOp.cmd "restore" [],
   DrawOp.style "strokeStyle" "#4a90d9",
   DrawOp.cmd "lineWidth" [3],
   DrawOp.cmd "arc" [x + size/2, y + size/2, size/2 + 5 + pulseSize, 0, mathPi * 2],
   DrawOp.cmd "stroke" []]

/-- One sample-video configuration (generate-samples-final.js lines
20-56, fields used by `generateVideo`): caption text, background
descriptor and duration in seconds. -/
structure SampleConfig where
  caption : String
  background : Background
  duration : ℕ
  deriving DecidableEq, Repr

/-- One iteration of the frame loop of `generateVideo`
(generate-samples-final.js lines 318-342): clear, background at the
synthetic progress `frameNum / totalFrames`, caption, avatar at
`(width - 120, 40)` with size 80.  `width = 1080`, `height = 1920`
(lines 302-303). -/
def renderFrame (mathPi : ℚ) (msin : ℚ → ℚ) (measure : String → ℚ)
    (cfg : SampleConfig) (totalFrames frameNum : ℕ) : List DrawOp :=
  let width : ℚ := 1080
  let height : ℚ := 1920
  let progress := (frameNum : ℚ) / (totalFrames : ℚ)
  DrawOp.cmd "clearRect" [0, 0, width, height] ::
  drawBackground mathPi msin width height cfg.background progress ++
  drawCaption measure cfg.caption frameNum totalFrames width height ++
  drawAvatarOps mathPi msin (width - 120) 40 80 frameNum

/-- The full frame production of `generateVideo` (generate-samples-final.js
lines 297-342): `fps = 30`, `totalFrames = duration * fps`, and one frame
per index in `[0, totalFrames)`.  `clock` models the wall-clock
(`Date.now` / `performance.now`) available in the environment: the batch
path never reads it — frame timestamps are the synthetic
`frameNum / totalFrames`. -/
def generateVideoFrames (mathPi : ℚ) (msin : ℚ → ℚ) (measure : String → ℚ)
    (clock : ℕ → ℚ) (cfg : SampleConfig) : List (List DrawOp) :=
  let fps := 30
  let totalFrames := cfg.duration * fps
  (List.range totalFrames).map fun frameNum =>
    renderFrame mathPi msin measure cfg totalFrames frameNum

/-! ## Helper lemmas -/

/-- `updateParticles` advances position `i` exactly when the absolute
index `k + i` is below the active particle count, and leaves it parked
otherwise. -/
lemma updateParticles_get? (msin : ℚ → ℚ) (time radius : ℚ) (cfg : StateConfig) :
    ∀ (l : List Particle) (k i : ℕ),
      (updateParticles msin time radius cfg k l).get? i =
        (l.get? i).map fun p =>
          if k + i < cfg.particleCount then
            updateParticle msin time radius cfg.particleSpeed p
          else p := by
  intro l
  induction l with
  | nil => intro k i; simp [updateParticles]
  | cons p ps ih =>
    intro k i
    cases i with
    | zero => simp [updateParticles]
    | succ j =>
      have hk : k + 1 + j = k + (j + 1) := by omega
      simp only [updateParticles, List.get?_cons_succ, ih (k + 1) j, hk]

/-- A concrete avatar for witnesses: state and particle store as set up
by the `KiarosXAvatar` constructor (part_000 lines 704-719), with a
nonzero pulse phase so that resets are observable. -/
def testAvatar : Avatar :=
  { currentState := "idle", stateConfig := idleConfig, pulsePhase := 3,
    rotationAngle := 1, time := 0,
    particles := List.replicate 35 ⟨0, 44, 1/50, 2, 0⟩,
    soundWaves := [], radius := 40 }

/-! ## Claim theorems -/

/-- C10: `setState` with an unknown state name changes nothing: the
returned avatar is the input avatar — in particular `currentState`, the
active `stateConfig` bundle and `pulsePhase` keep their prior values,
and the pulse phase is *not* reset to 0. -/
theorem setState_unknown_no_change (a : Avatar) (state : String)
    (h : statesLookup state = none) :
    (setState a state).1 = a ∧
    (setState a state).1.currentState = a.currentState ∧
    (setState a state).1.stateConfig = a.stateConfig ∧
    (setState a state).1.pulsePhase = a.pulsePhase := by
  simp [setState, h]

/-- Witness for C10 at the unknown state name `"dancing"` on a concrete
avatar with pulse phase 3. -/
theorem setState_unknown_no_change_witness :
    statesLookup "dancing" = none ∧
    (setState testAvatar "dancing").1 = testAvatar ∧
    (setState testAvatar "dancing").1.pulsePhase = 3 :=
  ⟨by decide, (setState_unknown_no_change testAvatar "dancing" (by decide)).1,
    by rw [(setState_unknown_no_change testAvatar "dancing" (by decide)).1]; rfl⟩

/-- C6: after `setState(s)` for a valid state `s`, `getState()` returns
`s`, the pulse phase is reset to 0, and the first subsequent `update`
tick advances exactly the particles with index below `s`'s configured
`particleCount` — every particle at an index at or beyond that count is
left untouched — regardless of the prior state's count. -/
theorem setState_applies_new_config (mathPi : ℚ) (msin : ℚ → ℚ)
    (rTalk rSpike dt : ℚ) (a : Avatar) (state : String) (cfg : StateConfig)
    (hcfg : statesLookup state = some cfg) :
    getState (setState a state).1 = state ∧
    (setState a state).1.pulsePhase = 0 ∧
    (∀ i : ℕ, i < cfg.particleCount →
      (update mathPi msin rTalk rSpike (setState a state).1 dt).particles.get? i =
        (a.particles.get? i).map
          (updateParticle msin (a.time + dt) a.radius cfg.particleSpeed)) ∧
    (∀ i : ℕ, cfg.particleCount ≤ i →
      (update mathPi msin rTalk rSpike (setState a state).1 dt).particles.get? i =
        a.particles.get? i) := by
  have hparts : (update mathPi msin rTalk rSpike (setState a state).1 dt).particles
      = updateParticles msin (a.time + dt) a.radius cfg 0 a.particles := by
    simp [update, setState, hcfg]
  refine ⟨by simp [setState, hcfg, getState], by simp [setState, hcfg], ?_, ?_⟩
  · intro i hi
    rw [hparts, updateParticles_get?]
    rcases hp : a.particles.get? i with _ | p <;> simp [hp, hi]
  · intro i hi
    have hni : ¬ (0 + i < cfg.particleCount) := by omega
    rw [hparts, updateParticles_get?]
    rcases hp : a.particles.get? i with _ | p <;> simp [hp, hni] <;>
      exact fun h => absurd h (by omega)

/-- Witness for C6 at `setState('executing')` on a concrete idle avatar
(prior particle count 12, executing particle count 35). -/
theorem setState_applies_new_config_witness :
    statesLookup "executing" = some executingConfig ∧
    (getState (setState testAvatar "executing").1 = "executing" ∧
      (setState testAvatar "executing").1.pulsePhase = 0 ∧
      (∀ i : ℕ, i < executingConfig.particleCount →
        (update (314/100) (fun _ => 0) 1 1 (setState testAvatar "executing").1 16).particles.get? i =
          (testAvatar.particles.get? i).map
            (updateParticle (fun _ => 0) (testAvatar.time + 16) testAvatar.radius
              executingConfig.particleSpeed)) ∧
      (∀ i : ℕ, executingConfig.particleCount ≤ i →
        (update (314/100) (fun _ => 0) 1 1 (setState testAvatar "executing").1 16).particles.get? i =
          testAvatar.particles.get? i)) :=
  ⟨by simp [statesLookup],
    setState_applies_new_config (314/100) (fun _ => 0) 1 1 16 testAvatar "executing"
      executingConfig (by simp [statesLookup])⟩

/-- C7: `setState` rejects every state name other than
`idle`/`talking`/`executing` with the unknown-state outcome (the
`console.warn('Unknown state: ...')` + early-return branch), and always
succeeds on the three valid names. -/
theorem setState_outcomes (a : Avatar) (state : String) :
    ((state ≠ "idle" ∧ state ≠ "talking" ∧ state ≠ "executing") →
      (setState a state).2 = SetStateOutcome.unknownState) ∧
    ((state = "idle" ∨ state = "talking" ∨ state = "executing") →
      (setState a state).2 = SetStateOutcome.ok) := by
  constructor
  · rintro ⟨h1, h2, h3⟩
    simp [setState, statesLookup, h1, h2, h3]
  · rintro (h | h | h) <;> simp [setState, statesLookup, h]

/-- Witness for C7: the invalid name `"sleeping"` is rejected as
unknown, the valid name `"executing"` succeeds. -/
theorem setState_outcomes_witness :
    ("sleeping" ≠ "idle" ∧ "sleeping" ≠ "talking" ∧ "sleeping" ≠ "executing") ∧
    (setState testAvatar "sleeping").2 = SetStateOutcome.unknownState ∧
    (setState testAvatar "executing").2 = SetStateOutcome.ok :=
  ⟨by decide, (setState_outcomes testAvatar "sleeping").1 (by decide),
    (setState_outcomes testAvatar "executing").2 (by decide)⟩

/-- C8: batch rendering is deterministic.  For a fixed environment
(`Math` library and font metrics) and a fixed config, the frame list
produced by `generateVideo` does not depend on the wall clock: two runs
yield identical drawn content for every frame index, exactly
`duration × 30` frames are produced, and the whole frame list is the
pure function `renderFrame` of the config and the frame index alone
(timestamps are the synthetic `frameNum / totalFrames`, never the
clock). -/
theorem generateVideo_deterministic (mathPi : ℚ) (msin : ℚ → ℚ)
    (measure : String → ℚ) (clock1 clock2 : ℕ → ℚ) (cfg : SampleConfig) :
    generateVideoFrames mathPi msin measure clock1 cfg =
      generateVideoFrames mathPi msin measure clock2 cfg ∧
    (generateVideoFrames mathPi msin measure clock1 cfg).length = cfg.duration * 30 ∧
    generateVideoFrames mathPi msin measure clock1 cfg =
      (List.range (cfg.duration * 30)).map
        (renderFrame mathPi msin measure cfg (cfg.duration * 30)) :=
  ⟨rfl, by simp [generateVideoFrames], rfl⟩

/-! ### Peak lemmas for `normalize` -/

lemma peak_foldl_init_le (l : List ℚ) : ∀ a : ℚ, a ≤ l.foldl (fun m x => max m |x|) a := by
  induction l with
  | nil => intro a; simp
  | cons x xs ih =>
    intro a
    exact le_trans (le_max_left a |x|) (ih (max a |x|))

lemma peak_nonneg (l : List ℚ) : 0 ≤ peak l :=
  peak_foldl_init_le l 0

lemma abs_le_peak_of_mem (l : List ℚ) : ∀ x ∈ l, |x| ≤ peak l := by
  unfold peak
  suffices h : ∀ (a : ℚ) (x : ℚ), x ∈ l → |x| ≤ l.foldl (fun m y => max m |y|) a by
    exact fun x hx => h 0 x hx
  induction l with
  | nil => intro a x hx; cases hx
  | cons y ys ih =>
    intro a x hx
    rcases List.mem_cons.mp hx with rfl | hmem
    · exact le_trans (le_max_right a |x|) (peak_foldl_init_le ys (max a |x|))
    · exact ih (max a |y|) x hmem

lemma peak_le (l : List ℚ) (c : ℚ) (hc : 0 ≤ c) (h : ∀ x ∈ l, |x| ≤ c) :
    peak l ≤ c := by
  unfold peak
  suffices hgen : ∀ a : ℚ, a ≤ c → l.foldl (fun m x => max m |x|) a ≤ c from hgen 0 hc
  induction l with
  | nil => intro a ha; simpa using ha
  | cons x xs ih =>
    intro a ha
    exact ih (fun y hy => h y (List.mem_cons_of_mem x hy))
      (max a |x|) (max_le ha (h x (List.mem_cons_self x xs)))

lemma peak_foldl_cases (l : List ℚ) :
    ∀ a : ℚ, l.foldl (fun m x => max m |x|) a = a ∨
      ∃ x ∈ l, l.foldl (fun m x => max m |x|) a = |x| := by
  induction l with
  | nil => intro a; left; rfl
  | cons x xs ih =>
    intro a
    rcases ih (max a |x|) with h0 | ⟨y, hy, hfold⟩
    · rcases max_cases a |x| with ⟨hmax, _⟩ | ⟨hmax, _⟩
      · left; rw [List.foldl_cons, h0, hmax]
      · right; exact ⟨x, List.mem_cons_self x xs, by rw [List.foldl_cons, h0, hmax]⟩
    · right; exact ⟨y, List.mem_cons_of_mem x hy, by rw [List.foldl_cons, hfold]⟩

lemma peak_eq_abs_mem (l : List ℚ) (h : peak l ≠ 0) : ∃ x ∈ l, |x| = peak l := by
  rcases peak_foldl_cases l 0 with h0 | ⟨y, hy, hfold⟩
  · exact absurd h0 h
  · exact ⟨y, hy, hfold.symm⟩

/-- C5: for a buffer with peak `p > 0` and target `t ≥ 0`, `normalize`
returns the buffer with every sample multiplied by exactly `t / p`, and
the resulting peak is exactly `t`; a buffer with peak 0 (all-zero) is
returned unchanged. -/
theorem normalize_scales_to_target (buffer : List ℚ) (target : ℚ)
    (hp : 0 < peak buffer) (ht : 0 ≤ target) :
    normalize buffer target = buffer.map (fun x => x * (target / peak buffer)) ∧
    (∀ i : ℕ, i < buffer.length →
      (normalize buffer target).getD i 0 = buffer.getD i 0 * (target / peak buffer)) ∧
    peak (normalize buffer target) = target ∧
    (∀ zero : List ℚ, peak zero = 0 → normalize zero target = zero) := by
  have hpne : peak buffer ≠ 0 := ne_of_gt hp
  have hmap : normalize buffer target = buffer.map fun x => x * (target / peak buffer) := by
    simp [normalize, hpne]
  have hscale : 0 ≤ target / peak buffer := div_nonneg ht (le_of_lt hp)
  refine ⟨hmap, ?_, ?_, ?_⟩
  · intro i hi
    rw [hmap]
    rcases List.getElem?_eq_some_iff.mpr ⟨hi, rfl⟩ with _
    rw [List.getD_eq_getElem?_getD, List.getElem?_map,
      List.getElem?_eq_getElem hi]
    simp [List.getD_eq_getElem?_getD, List.getElem?_eq_getElem hi]
  · rw [hmap]
    apply le_antisymm
    · refine peak_le _ target ht ?_
      intro y hy
      rcases List.mem_map.mp hy with ⟨x, hx, rfl⟩
      rw [abs_mul, abs_of_nonneg hscale]
      calc |x| * (target / peak buffer)
          ≤ peak buffer * (target / peak buffer) :=
            mul_le_mul_of_nonneg_right (abs_le_peak_of_mem buffer x hx) hscale
        _ = target := by field_simp
    · rcases peak_eq_abs_mem buffer hpne with ⟨x, hx, habs⟩
      have hmem : x * (target / peak buffer) ∈
          buffer.map fun y => y * (target / peak buffer) :=
        List.mem_map.mpr ⟨x, hx, rfl⟩
      have := abs_le_peak_of_mem _ _ hmem
      rw [abs_mul, abs_of_nonneg hscale, habs] at this
      calc target = peak buffer * (target / peak buffer) := by field_simp
        _ ≤ peak _ := this
  · intro zero hzero
    simp [normalize, hzero]

/-- Witness for C5 on the buffer `[2, -1]` (peak 2) with the default
target 0.95: every sample is scaled by exactly 0.475. -/
theorem normalize_scales_to_target_witness :
    0 < peak [2, -1] ∧ (0 : ℚ) ≤ 19/20 ∧
    (normalize [2, -1] (19/20) = [2 * (19/40), -1 * (19/40)] ∧
      (∀ i : ℕ, i < 2 →
        (normalize [2, -1] (19/20)).getD i 0 = [(2 : ℚ), -1].getD i 0 * (19/40)) ∧
      peak (normalize [2, -1] (19/20)) = 19/20) := by
  have hpk : peak [(2 : ℚ), -1] = 2 := by norm_num [peak]
  have h := normalize_scales_to_target [2, -1] (19/20)
    (by rw [hpk]; norm_num) (by norm_num)
  refine ⟨by rw [hpk]; norm_num, by norm_num, ?_, ?_, h.2.2.1⟩
  · rw [h.1, hpk]; norm_num
  · intro i hi
    rw [h.2.1 i (by simpa using hi), hpk]
    norm_num

/-- C2 counterexample: in the `VideoRenderer` typewriter path
(part_001 lines 339-341) there is no lead-in: at elapsed time 0 the
number of visible words is 0 and the caption text is fully blank —
contradicting "the caption is never fully blank at elapsed time 0" —
while the claimed formula (the batch compositor's) would show a positive
number of words. -/
theorem vr_caption_blank_at_zero :
    vrTextToShow "hello world" 0 50 = "" ∧
    vrVisibleWords 0 50 2 = 0 ∧
    0 < visibleWordCount 2 0 300 := by
  refine ⟨?_, ?_, ?_⟩
  · norm_num [vrTextToShow]
    rfl
  · norm_num [vrVisibleWords]
  · norm_num [visibleWordCount]

/-- C2 (amended): the batch compositor's typewriter count
(generate-samples-final.js lines 265-270) equals
`min(floor(frameNum · wordCount / totalFrames) + 3, wordCount)` — the
claimed formula with the 3-word lead-in, capped at the full word
count — is positive at frame 0, monotonically non-decreasing in the
frame index, and equals the full word count from `totalFrames` on.  The
`VideoRenderer` typewriter path (part_001 lines 339-341) instead shows
`floor(elapsed / textSpeed)` words with no lead-in: blank at elapsed 0,
monotone, and complete only once `textSpeed · wordCount` elapsed. -/
theorem caption_word_reveal (wc totalFrames : ℕ) (textSpeed : ℚ)
    (hwc : 0 < wc) (htf : 0 < totalFrames) (hts : 0 < textSpeed) :
    (∀ f : ℕ, visibleWordCount wc f totalFrames =
      min ((⌊(f * wc : ℚ) / (totalFrames : ℚ)⌋).toNat + 3) wc) ∧
    0 < visibleWordCount wc 0 totalFrames ∧
    (∀ f1 f2 : ℕ, f1 ≤ f2 →
      visibleWordCount wc f1 totalFrames ≤ visibleWordCount wc f2 totalFrames) ∧
    (∀ f : ℕ, totalFrames ≤ f → visibleWordCount wc f totalFrames = wc) ∧
    vrVisibleWords 0 textSpeed wc = 0 ∧
    (∀ e1 e2 : ℚ, e1 ≤ e2 →
      vrVisibleWords e1 textSpeed wc ≤ vrVisibleWords e2 textSpeed wc) ∧
    (∀ e : ℚ, textSpeed * wc ≤ e → vrVisibleWords e textSpeed wc = wc) := by
  have htfQ : (0 : ℚ) < (totalFrames : ℚ) := by exact_mod_cast htf
  refine ⟨fun f => rfl, ?_, ?_, ?_, ?_, ?_, ?_⟩
  · simp only [visibleWordCount]
    push_cast
    norm_num
    omega
  · intro f1 f2 hf
    have hdiv : ((f1 : ℚ) * (wc : ℚ)) / (totalFrames : ℚ) ≤
        ((f2 : ℚ) * (wc : ℚ)) / (totalFrames : ℚ) := by
      apply (div_le_div_right htfQ).mpr
      exact mul_le_mul_of_nonneg_right (by exact_mod_cast hf) (by positivity)
    exact min_le_min
      (Nat.add_le_add_right (Int.toNat_le_toNat (Int.floor_le_floor hdiv)) 3) le_rfl
  · intro f hf
    have hle : (wc : ℤ) ≤ ⌊((f : ℚ) * (wc : ℚ)) / (totalFrames : ℚ)⌋ := by
      rw [Int.le_floor, le_div_iff htfQ]
      push_cast
      have hfQ : (totalFrames : ℚ) ≤ (f : ℚ) := by exact_mod_cast hf
      nlinarith [show (0:ℚ) ≤ (wc:ℚ) from by positivity]
    have hmin : wc ≤ (⌊((f : ℚ) * (wc : ℚ)) / (totalFrames : ℚ)⌋).toNat + 3 := by omega
    simp [visibleWordCount, Nat.min_eq_right hmin]
  · simp [vrVisibleWords]
  · intro e1 e2 he
    have hdiv : e1 / textSpeed ≤ e2 / textSpeed := (div_le_div_right hts).mpr he
    exact min_le_min (Int.toNat_le_toNat (Int.floor_le_floor hdiv)) le_rfl
  · intro e he
    have hle : (wc : ℤ) ≤ ⌊e / textSpeed⌋ := by
      rw [Int.le_floor, le_div_iff hts, mul_comm]
      exact he
    have hmin : wc ≤ (⌊e / textSpeed⌋).toNat := by omega
    simp [vrVisibleWords, Nat.min_eq_right hmin]

/-! ### Mix lemmas -/

lemma getD_range_map {α : Type} (L j : ℕ) (g : ℕ → α) (d : α) (hj : j < L) :
    ((List.range L).map g).getD j d = g j := by
  rw [List.getD_eq_getElem?_getD, List.getElem?_map, List.getElem?_range hj]
  rfl

lemma mixLoop_weighted (L : ℕ) (gains : List ℚ) :
    ∀ (bs : List (List ℚ)) (i : ℕ) (f : ℕ → ℚ),
      (∀ b ∈ bs, b.length = L) →
      i + bs.length ≤ gains.length →
      mixLoop L (some gains) i bs ((List.range L).map fun j => some (f j)) =
        (List.range L).map fun j =>
          some (f j + (List.zipWith (fun (b : List ℚ) (g : ℚ) => b.getD j 0 * g)
            bs (gains.drop i)).sum) := by
  intro bs
  induction bs with
  | nil =>
    intro i f _ _
    simp [mixLoop]
  | cons b rest ih =>
    intro i f hlen hg
    have hi : i < gains.length := by
      simp only [List.length_cons] at hg
      omega
    have hgi : gains.get? i = some (gains.getD i 0) := by
      rw [List.get?_eq_getElem?, List.getElem?_eq_getElem hi,
        List.getD_eq_getElem?_getD, List.getElem?_eq_getElem hi]
      rfl
    have hacc : ((List.range L).map fun j =>
        match ((List.range L).map fun j => some (f j)).getD j none, b.get? j,
          some (gains.getD i 0) with
        | some av, some bv, some gv => some (av + bv * gv)
        | _, _, _ => none) =
        (List.range L).map fun j => some (f j + b.getD j 0 * gains.getD i 0) := by
      apply List.map_congr_left
      intro j hj
      have hjL : j < L := List.mem_range.mp hj
      have hjb : j < b.length := by
        rw [hlen b (List.mem_cons_self b rest)]
        exact hjL
      have hbj : b.get? j = some (b.getD j 0) := by
        rw [List.get?_eq_getElem?, List.getElem?_eq_getElem hjb,
          List.getD_eq_getElem?_getD, List.getElem?_eq_getElem hjb]
        rfl
      rw [getD_range_map L j _ none hjL, hbj]
    have hdrop : gains.drop i = gains.getD i 0 :: gains.drop (i + 1) := by
      rw [List.drop_eq_getElem_cons hi, List.getD_eq_getElem?_getD,
        List.getElem?_eq_getElem hi]
      rfl
    calc mixLoop L (some gains) i (b :: rest) ((List.range L).map fun j => some (f j))
        = mixLoop L (some gains) (i + 1) rest
            ((List.range L).map fun j => some (f j + b.getD j 0 * gains.getD i 0)) := by
          rw [mixLoop, hgi, hacc]
      _ = (List.range L).map fun j =>
            some ((f j + b.getD j 0 * gains.getD i 0) +
              (List.zipWith (fun (b : List ℚ) (g : ℚ) => b.getD j 0 * g)
                rest (gains.drop (i + 1))).sum) := by
          apply ih (i + 1) _ (fun y hy => hlen y (List.mem_cons_of_mem b hy))
          simp only [List.length_cons] at hg
          omega
      _ = (List.range L).map fun j =>
            some (f j + (List.zipWith (fun (b : List ℚ) (g : ℚ) => b.getD j 0 * g)
              (b :: rest) (gains.drop i)).sum) := by
          apply List.map_congr_left
          intro j _
          rw [hdrop, List.zipWith_cons_cons, List.sum_cons, add_assoc]

/-- C3 counterexample: mixing `[1]` with `[0, 0]` — buffers of different
sample counts — does *not* fail: `mix` performs no length validation and
returns a buffer (sized to the first input), while the specified
behaviour is the `LengthMismatch` error. -/
theorem mix_no_length_check :
    mix [[1], [0, 0]] none = [some 1] ∧
    mixSpec [[1], [0, 0]] [1, 1] = Except.error AudioError.lengthMismatch := by
  constructor
  · norm_num [mix, mixLoop, List.range_succ]
  · norm_num [mixSpec]

/-- C3 (amended): `mix` never validates lengths — its output is always
sized to the first buffer and it silently reads past shorter buffers
(producing NaN, modelled as `none`) — but on buffers of *equal* length
it returns exactly the sample-wise weighted sum, agreeing with the
spec's `mixSpec`. -/
theorem mix_weighted_sum (buffers : List (List ℚ)) (gains : List ℚ) (L : ℕ)
    (hne : buffers ≠ [])
    (hlen : ∀ b ∈ buffers, b.length = L)
    (hg : gains.length = buffers.length) :
    mix buffers (some gains) =
      (List.range L).map (fun j =>
        some ((List.zipWith (fun (b : List ℚ) (g : ℚ) => b.getD j 0 * g)
          buffers gains).sum)) ∧
    mixSpec buffers gains =
      Except.ok ((List.range L).map fun j =>
        (List.zipWith (fun (b : List ℚ) (g : ℚ) => b.getD j 0 * g)
          buffers gains).sum) := by
  match buffers, hne with
  | b0 :: rest, _ =>
    have hb0 : b0.length = L := hlen b0 (List.mem_cons_self b0 rest)
    constructor
    · have hinit : List.replicate b0.length (some (0 : ℚ)) =
          (List.range b0.length).map fun _ => some (0 : ℚ) := by
        symm
        simp [List.eq_replicate_iff]
      rw [mix, hinit, hb0]
      rw [mixLoop_weighted L gains (b0 :: rest) 0 (fun _ => (0 : ℚ)) hlen (by omega)]
      apply List.map_congr_left
      intro j _
      rw [List.drop_zero, zero_add]
    · have hcond : ((b0 :: rest).all fun b => decide (b.length = L)) = true := by
        simp only [List.all_eq_true, decide_eq_true_eq]
        exact hlen
      simp only [mixSpec, List.headD_cons, hb0, hcond, if_true]

/-- Witness for C3's amended equal-length case: two one-sample buffers
mixed with gains `(0.5, 0.5)`. -/
theorem mix_weighted_sum_witness :
    ([[2], [4]] : List (List ℚ)) ≠ [] ∧
    mix [[2], [4]] (some [1/2, 1/2]) = [some 3] ∧
    mixSpec [[2], [4]] [1/2, 1/2] = Except.ok [3] := by
  have h := mix_weighted_sum [[2], [4]] [1/2, 1/2] 1 (by simp)
    (by intro b hb; fin_cases hb <;> simp)
    (by simp)
  refine ⟨by simp, ?_, ?_⟩
  · rw [h.1]
    norm_num [List.range_succ]
  · rw [h.2]
    norm_num [List.range_succ]

/-! ### WAV layout lemmas -/

lemma writeWavHeader_length (n sr : ℕ) : (writeWavHeader n sr).length = 44 := by
  have h1 : (strBytes "RIFF").length = 4 := by decide
  have h2 : (strBytes "WAVE").length = 4 := by decide
  have h3 : (strBytes "fmt ").length = 4 := by decide
  have h4 : (strBytes "data").length = 4 := by decide
  simp [writeWavHeader, u16le, u32le, h1, h2, h3, h4]

lemma bufferToWavHeader_length (c n sr : ℕ) :
    (bufferToWavHeader c n sr).length = 44 := by
  have h1 : (strBytes "RIFF").length = 4 := by decide
  have h2 : (strBytes "WAVE").length = 4 := by decide
  have h3 : (strBytes "fmt ").length = 4 := by decide
  have h4 : (strBytes "data").length = 4 := by decide
  simp [bufferToWavHeader, u16le, u32le, h1, h2, h3, h4]

lemma take_append_of_length {α : Type} {l t : List α} {n : ℕ} (h : l.length = n) :
    (l ++ t).take n = l := by
  rw [← h, List.take_left]

lemma drop_append_add {α : Type} {l t : List α} {n : ℕ} (h : l.length = n) (m : ℕ) :
    (l ++ t).drop (n + m) = t.drop m := by
  subst h
  rw [← List.drop_drop, List.drop_left]

lemma flatMap_length_const {α : Type} {f : α → List ℕ} {c : ℕ}
    (hc : ∀ k, (f k).length = c) (l : List α) :
    (l.flatMap f).length = c * l.length := by
  induction l with
  | nil => simp
  | cons x xs ih => simp [List.flatMap_cons, hc, ih, Nat.mul_succ, Nat.add_comm]

lemma flatMap_blocks {f : ℕ → List ℕ} {c : ℕ} (hc : ∀ k, (f k).length = c) :
    ∀ (n s i : ℕ), i < n →
      (((List.range' s n).flatMap f).drop (c * i)).take c = f (s + i) := by
  intro n
  induction n with
  | zero => intro s i hi; omega
  | succ m ih =>
    intro s i hi
    rw [List.range'_succ, List.flatMap_cons]
    cases i with
    | zero =>
      rw [Nat.mul_zero, List.drop_zero, take_append_of_length (hc s), Nat.add_zero]
    | succ j =>
      have hcj : c * (j + 1) = c + c * j := by ring
      rw [hcj, drop_append_add (hc s) (c * j), ih (s + 1) j (by omega)]
      congr 1
      omega

lemma quant_bounds (x : ℚ) : -32768 ≤ quant x ∧ quant x ≤ 32767 :=
  ⟨le_max_left _ _, max_le (by norm_num) (min_le_left _ _)⟩

lemma quant_in_range (x : ℚ) (h1 : -1 ≤ x) (h2 : x ≤ 1) :
    quant x = ⌊x * 32767⌋ := by
  have hlow : (-32768 : ℤ) ≤ ⌊x * 32767⌋ := by
    rw [Int.le_floor]
    push_cast
    nlinarith
  have hhigh : ⌊x * 32767⌋ ≤ 32767 := by
    have : (x * 32767 : ℚ) ≤ ((32767 : ℤ) : ℚ) := by push_cast; nlinarith
    calc ⌊x * 32767⌋ ≤ ⌊((32767 : ℤ) : ℚ)⌋ := Int.floor_le_floor this
      _ = 32767 := Int.floor_intCast _
  rw [quant, min_eq_right hhigh, max_eq_right hlow]

lemma quantB_clamps_first (x : ℚ) : quantB x = quantB (max (-1) (min 1 x)) := by
  have hs1 : max (-1 : ℚ) (min 1 x) ≤ 1 := max_le (by norm_num) (min_le_left _ _)
  have hs2 : (-1 : ℚ) ≤ max (-1) (min 1 x) := le_max_left _ _
  rw [quantB, quantB, min_eq_right hs1, max_eq_right hs2]

lemma quantB_bounds (x : ℚ) : -32768 ≤ quantB x ∧ quantB x ≤ 32767 := by
  rw [quantB]
  set s := max (-1 : ℚ) (min 1 x) with hs
  have hs1 : s ≤ 1 := max_le (by norm_num) (min_le_left _ _)
  have hs2 : (-1 : ℚ) ≤ s := le_max_left _ _
  by_cases hneg : s < 0
  · rw [if_pos hneg]
    rw [truncQ, if_pos (by nlinarith)]
    constructor
    · calc (-32768 : ℤ) = ⌈((-32768 : ℤ) : ℚ)⌉ := (Int.ceil_intCast _).symm
        _ ≤ ⌈s * 32768⌉ := Int.ceil_le_ceil (by push_cast; nlinarith)
    · have : ⌈s * 32768⌉ ≤ ⌈(0 : ℚ)⌉ := Int.ceil_le_ceil (by nlinarith)
      simp at this
      omega
  · rw [if_neg hneg]
    push_neg at hneg
    rw [truncQ, if_neg (by push_neg; nlinarith)]
    constructor
    · have : (0 : ℤ) ≤ ⌊s * 32767⌋ := by
        rw [Int.le_floor]; push_cast; nlinarith
      omega
    · have : (s * 32767 : ℚ) ≤ ((32767 : ℤ) : ℚ) := by push_cast; nlinarith
      calc ⌊s * 32767⌋ ≤ ⌊((32767 : ℤ) : ℚ)⌋ := Int.floor_le_floor this
        _ = 32767 := Int.floor_intCast _

/-- C4 counterexample: `writeWav` does *not* clamp the float sample to
`[-1,1]` before quantization — it clamps the already-scaled integer.
If it clamped first, the out-of-range sample `-2` would encode like the
clamped sample `-1`; in fact `-2` quantizes to `-32768` while `-1`
quantizes to `⌊-32767⌋ = -32767`, so the two artifacts differ at data
byte 44. -/
theorem writeWav_clamps_after_quantize :
    quant (-2) = -32768 ∧
    quant (max (-1) (min 1 (-2 : ℚ))) = -32767 ∧
    writeWav [(-2 : ℚ)] [0] 44100 ≠ writeWav [max (-1) (min 1 (-2 : ℚ))] [0] 44100 := by
  have hclamp : max (-1 : ℚ) (min 1 (-2 : ℚ)) = -1 := by norm_num
  have hq2 : quant (-2) = -32768 := by
    rw [quant]
    norm_num
  have hq1 : quant (-1) = -32767 := by
    rw [quant]
    norm_num
  refine ⟨hq2, by rw [hclamp]; exact hq1, ?_⟩
  rw [hclamp]
  intro heq
  have hs2 : ((writeWav [(-2 : ℚ)] [0] 44100).drop 44).take 4 =
      i16le (quant (-2)) ++ i16le (quant 0) := by
    rw [show (44 : ℕ) = 44 + 0 by rfl, writeWav,
      drop_append_add (writeWavHeader_length _ _) 0, List.drop_zero]
    simp [List.range_succ, i16le, u16le]
  have hs1 : ((writeWav [(-1 : ℚ)] [0] 44100).drop 44).take 4 =
      i16le (quant (-1)) ++ i16le (quant 0) := by
    rw [show (44 : ℕ) = 44 + 0 by rfl, writeWav,
      drop_append_add (writeWavHeader_length _ _) 0, List.drop_zero]
    simp [List.range_succ, i16le, u16le]
  rw [heq, hs1, hq1] at hs2
  rw [hq2] at hs2
  have hq0 : quant 0 = 0 := by rw [quant]; norm_num
  rw [hq0] at hs2
  revert hs2
  decide

/-- C4 (amended): both exporters emit the exact 44-byte
RIFF/WAVE/fmt/data little-endian header (16-bit PCM) followed by
interleaved left-then-right 16-bit samples, and both saturate so no
out-of-range sample wraps around; but only `_bufferToWav` clamps the
float sample to `[-1,1]` *before* scaling — `writeWav` scales and floors
first and clamps the resulting integer to `[-32768, 32767]` (hence
2 channels for `writeWav` always, and for `_bufferToWav` whenever the
rendered buffer is stereo). -/
theorem wav_layout (L R l r : List ℚ) (sr len : ℕ) :
    (writeWav L R sr).length = 44 + 4 * L.length ∧
    (writeWav L R sr).take 44 =
      strBytes "RIFF" ++ u32le (36 + L.length * 4) ++
      strBytes "WAVE" ++ strBytes "fmt " ++
      u32le 16 ++ u16le 1 ++ u16le 2 ++ u32le sr ++ u32le (sr * 4) ++
      u16le 4 ++ u16le 16 ++ strBytes "data" ++ u32le (L.length * 4) ∧
    (∀ i : ℕ, i < L.length →
      (((writeWav L R sr).drop (44 + 4 * i)).take 4) =
        i16le (quant (L.getD i 0)) ++ i16le (quant (R.getD i 0))) ∧
    (∀ x : ℚ, -32768 ≤ quant x ∧ quant x ≤ 32767) ∧
    (∀ x : ℚ, -1 ≤ x → x ≤ 1 → quant x = ⌊x * 32767⌋) ∧
    (bufferToWav [l, r] len sr).length = 44 + 4 * len ∧
    (bufferToWav [l, r] len sr).take 44 =
      strBytes "RIFF" ++ u32le (36 + len * 4) ++
      strBytes "WAVE" ++ strBytes "fmt " ++
      u32le 16 ++ u16le 1 ++ u16le 2 ++ u32le sr ++ u32le (sr * 4) ++
      u16le 4 ++ u16le 16 ++ strBytes "data" ++ u32le (len * 4) ∧
    (∀ i : ℕ, i < len →
      (((bufferToWav [l, r] len sr).drop (44 + 4 * i)).take 4) =
        i16le (quantB (l.getD i 0)) ++ i16le (quantB (r.getD i 0))) ∧
    (∀ x : ℚ, quantB x = quantB (max (-1) (min 1 x))) ∧
    (∀ x : ℚ, -32768 ≤ quantB x ∧ quantB x ≤ 32767) := by
  have hwblock : ∀ k : ℕ,
      (i16le (quant (L.getD k 0)) ++ i16le (quant (R.getD k 0))).length = 4 := by
    intro k; simp [i16le, u16le]
  have hbblock : ∀ k : ℕ,
      (([l, r] : List (List ℚ)).flatMap fun ch => i16le (quantB (ch.getD k 0))).length = 4 := by
    intro k; simp [i16le, u16le]
  refine ⟨?_, ?_, ?_, quant_bounds, quant_in_range, ?_, ?_, ?_, quantB_clamps_first,
    quantB_bounds⟩
  · rw [writeWav, List.length_append, writeWavHeader_length,
      flatMap_length_const hwblock, List.length_range]
  · rw [writeWav, take_append_of_length (writeWavHeader_length _ _), writeWavHeader]
  · intro i hi
    rw [writeWav, show 44 + 4 * i = 44 + 4 * i by rfl,
      drop_append_add (writeWavHeader_length _ _) (4 * i),
      List.range_eq_range']
    have := flatMap_blocks hwblock L.length 0 i hi
    rw [this, Nat.zero_add]
  · rw [bufferToWav, List.length_append, bufferToWavHeader_length,
      flatMap_length_const hbblock, List.length_range]
  · rw [bufferToWav, take_append_of_length (bufferToWavHeader_length _ _ _),
      bufferToWavHeader]
    norm_num
  · intro i hi
    rw [bufferToWav, drop_append_add (bufferToWavHeader_length _ _ _) (4 * i),
      List.range_eq_range']
    have := flatMap_blocks hbblock len 0 i hi
    rw [this, Nat.zero_add]
    simp [List.flatMap_cons]

/-- Witness for C4's amended layout on one-sample stereo buffers. -/
theorem wav_layout_witness :
    (writeWav [(-2 : ℚ)] [0] 44100).length = 48 ∧
    ((writeWav [(-2 : ℚ)] [0] 44100).drop 44).take 4 =
      i16le (quant (-2)) ++ i16le (quant 0) ∧
    (bufferToWav [[(1/2 : ℚ)], [-2]] 1 44100).length = 48 ∧
    ((bufferToWav [[(1/2 : ℚ)], [-2]] 1 44100).drop 44).take 4 =
      i16le (quantB (1/2)) ++ i16le (quantB (-2)) ∧
    quant ((1 : ℚ)/2) = ⌊(1 : ℚ)/2 * 32767⌋ := by
  have h := wav_layout [(-2 : ℚ)] [0] [(1/2 : ℚ)] [-2] 44100 1
  refine ⟨?_, ?_, ?_, ?_, h.2.2.2.2.1 (1/2) (by norm_num) (by norm_num)⟩
  · rw [h.1]; norm_num
  · have := h.2.2.1 0 (by norm_num)
    simpa using this
  · rw [h.2.2.2.2.2.1]
  · have := h.2.2.2.2.2.2.2.1 0 (by norm_num)
    simpa using this

/-! ### Store lemmas -/

lemma listGetD_set_ne {α : Type} : ∀ (l : List α) (k j : ℕ) (v d : α), k ≠ j →
    (l.set k v).getD j d = l.getD j d
  | [], _, _, _, _, _ => rfl
  | _ :: _, 0, 0, _, _, h => absurd rfl h
  | _ :: _, 0, _ + 1, _, _, _ => rfl
  | _ :: _, _ + 1, 0, _, _, _ => rfl
  | _ :: xs, k + 1, j + 1, v, d, h =>
    listGetD_set_ne xs k j v d (by omega)

lemma listGetD_set_self {α : Type} : ∀ (l : List α) (k : ℕ) (v d : α),
    (l.set k v).getD k d = if k < l.length then v else d
  | [], _, _, _ => by simp
  | _ :: _, 0, _, _ => by simp
  | x :: xs, k + 1, v, d => by
    simpa using listGetD_set_self xs k v d

lemma listSet_getD_self {α : Type} : ∀ (l : List α) (k : ℕ) (d : α),
    l.set k (l.getD k d) = l
  | [], _, _ => rfl
  | _ :: _, 0, _ => rfl
  | x :: xs, k + 1, d => by
    simpa using listSet_getD_self xs k d

lemma listGetD_of_length_le {α : Type} (l : List α) (j : ℕ) (d : α)
    (h : l.length ≤ j) : l.getD j d = d := by
  rw [List.getD_eq_getElem?_getD, List.getElem?_eq_none h]
  rfl

lemma writeBuf_getD_ne (st : Store) (r i : ℕ) (v : ℚ) (r' : ℕ) (h : r' ≠ r) :
    (writeBuf st r i v).getD r' [] = st.getD r' [] :=
  listGetD_set_ne st r r' _ [] (fun he => h he.symm)

lemma foldl_preserves {α : Type} (F : Store → α → Store) (r' : ℕ)
    (hF : ∀ s k, (F s k).getD r' [] = s.getD r' []) :
    ∀ (l : List α) (st : Store), ((l.foldl F st).getD r' []) = st.getD r' [] := by
  intro l
  induction l with
  | nil => intro st; rfl
  | cons x xs ih => intro st; rw [List.foldl_cons, ih, hF]

lemma alloc_getD (st : Store) (x : List ℚ) (r' : ℕ) (h : r' < st.length) :
    (st ++ [x]).getD r' [] = st.getD r' [] := by
  rw [List.getD_eq_getElem?_getD, List.getElem?_append_left h,
    ← List.getD_eq_getElem?_getD]

lemma lowpassSt_preserves (mathPi cutoff sampleRate : ℚ) (st : Store) (b r' : ℕ)
    (h : r' < st.length) :
    (lowpassSt mathPi st b cutoff sampleRate).1.getD r' [] = st.getD r' [] := by
  have hne : r' ≠ st.length := by omega
  simp only [lowpassSt, allocBuf]
  refine Eq.trans (foldl_preserves _ r' ?_ _ _) ?_
  · intro s k
    exact writeBuf_getD_ne _ _ _ _ _ hne
  · rw [writeBuf_getD_ne _ _ _ _ _ hne]
    exact alloc_getD st _ r' h

lemma applyEnvelopeSt_preserves (attack decay sustain release : ℚ)
    (st : Store) (b r' : ℕ) (h : r' < st.length) :
    (applyEnvelopeSt st b attack decay sustain release).1.getD r' [] = st.getD r' [] := by
  have hne : r' ≠ st.length := by omega
  simp only [applyEnvelopeSt, allocBuf]
  refine Eq.trans (foldl_preserves _ r' ?_ _ _) ?_
  · intro s k
    exact writeBuf_getD_ne _ _ _ _ _ hne
  · exact alloc_getD st _ r' h

lemma normalizeSt_preserves (target : ℚ) (st : Store) (b r' : ℕ)
    (h : r' < st.length) :
    (normalizeSt st b target).1.getD r' [] = st.getD r' [] := by
  have hne : r' ≠ st.length := by omega
  by_cases hz : peak (st.getD b []) = 0
  · simp only [normalizeSt]
    rw [if_pos hz]
  · simp only [normalizeSt]
    rw [if_neg hz]
    refine Eq.trans (foldl_preserves _ r' ?_ _ _) ?_
    · intro s k
      exact writeBuf_getD_ne _ _ _ _ _ hne
    · exact alloc_getD st _ r' h

/-- The in-place scaling store loop, reduced to a pure list fold on the
buffer it targets. -/
lemma scaleLoop_store (b : ℕ) (scale : ℚ) :
    ∀ (l : List ℕ) (st : Store),
      l.foldl (fun s2 i => writeBuf s2 b i (readBuf s2 b i * scale)) st =
        st.set b (l.foldl (fun l2 i => l2.set i (l2.getD i 0 * scale)) (st.getD b [])) := by
  intro l
  induction l with
  | nil => intro st; exact (listSet_getD_self st b []).symm
  | cons x xs ih =>
    intro st
    rw [List.foldl_cons, List.foldl_cons, ih]
    rw [writeBuf, readBuf]
    rw [List.set_set]
    congr 1
    rw [listGetD_set_self]
    by_cases hb : b < st.length
    · rw [if_pos hb]
    · rw [if_neg hb]
      rw [listGetD_of_length_le st b [] (by omega)]
      simp

lemma listScaleFold (scale : ℚ) :
    ∀ (n k : ℕ) (l : List ℚ) (j : ℕ),
      ((List.range' k n).foldl (fun l2 i => l2.set i (l2.getD i 0 * scale)) l).getD j 0 =
        if k ≤ j ∧ j < k + n then l.getD j 0 * scale else l.getD j 0 := by
  intro n
  induction n with
  | zero =>
    intro k l j
    rw [if_neg (by omega)]
    rfl
  | succ m ih =>
    intro k l j
    rw [List.range'_succ, List.foldl_cons, ih]
    by_cases hj : j = k
    · subst hj
      rw [if_neg (by omega), listGetD_set_self,
        if_pos (show j ≤ j ∧ j < j + (m + 1) from ⟨le_refl j, by omega⟩)]
      by_cases hlen : j < l.length
      · rw [if_pos hlen]
      · rw [if_neg hlen, listGetD_of_length_le l j 0 (by omega), zero_mul]
    · rw [listGetD_set_ne l k j _ 0 (fun he => hj he.symm)]
      by_cases hin : k + 1 ≤ j ∧ j < k + 1 + m
      · rw [if_pos hin, if_pos (by omega)]
      · rw [if_neg hin, if_neg (by omega)]

/-- C9 counterexample: `AudioMixer._normalizeBuffer` mutates the shared
buffer *in place*.  On a store holding the one-channel buffer `[2]`
(peak 2 > 1) it rescales that very buffer to `[0.99]`: the input
buffer's sample changed, and no new buffer was allocated. -/
theorem normalizeBuffer_mutates_in_place :
    normalizeBufferSt [[(2 : ℚ)]] [0] = [[99/100]] ∧
    readBuf (normalizeBufferSt [[(2 : ℚ)]] [0]) 0 0 ≠ readBuf [[(2 : ℚ)]] 0 0 := by
  have h : normalizeBufferSt [[(2 : ℚ)]] [0] = [[99/100]] := by
    norm_num [normalizeBufferSt, lenBuf, writeBuf, readBuf, List.range_succ]
  refine ⟨h, ?_⟩
  rw [h]
  norm_num [readBuf]

/-- C9 (amended): `lowpass` and `applyEnvelope` always allocate a fresh
result buffer and leave every pre-existing buffer (in particular their
input) unchanged.  `normalize` never mutates any existing buffer and
allocates a fresh result when the peak is nonzero — but on a zero-peak
buffer it returns the *input reference itself* (unmutated), not a new
allocation.  `AudioMixer._normalizeBuffer`, by contrast, works in
place: it leaves the store untouched when the peak is ≤ 1 and otherwise
rescales the shared buffer's own samples by `0.99 / peak`. -/
theorem bufferDeriving_allocation (mathPi cutoff sampleRate target : ℚ)
    (attack decay sustain release : ℚ) (st : Store) (b : ℕ)
    (hb : b < st.length) :
    ((lowpassSt mathPi st b cutoff sampleRate).2 = st.length ∧
      ∀ r' : ℕ, r' < st.length →
        (lowpassSt mathPi st b cutoff sampleRate).1.getD r' [] = st.getD r' []) ∧
    ((applyEnvelopeSt st b attack decay sustain release).2 = st.length ∧
      ∀ r' : ℕ, r' < st.length →
        (applyEnvelopeSt st b attack decay sustain release).1.getD r' [] = st.getD r' []) ∧
    ((∀ r' : ℕ, r' < st.length →
        (normalizeSt st b target).1.getD r' [] = st.getD r' []) ∧
      (peak (st.getD b []) ≠ 0 → (normalizeSt st b target).2 = st.length) ∧
      (peak (st.getD b []) = 0 → normalizeSt st b target = (st, b))) ∧
    ((peak (st.getD b []) ≤ 1 → normalizeBufferSt st [b] = st) ∧
      (1 < peak (st.getD b []) → ∀ i : ℕ, i < lenBuf st b →
        readBuf (normalizeBufferSt st [b]) b i =
          readBuf st b i * ((99/100) / peak (st.getD b [])))) := by
  have hm : ([b].foldl (fun acc ch => (st.getD ch []).foldl (fun a x => max a |x|) acc) 0)
      = peak (st.getD b []) := by
    rw [List.foldl_cons, List.foldl_nil, peak]
  refine ⟨⟨by simp [lowpassSt, allocBuf],
      fun r' hr' => lowpassSt_preserves mathPi cutoff sampleRate st b r' hr'⟩,
    ⟨by simp [applyEnvelopeSt, allocBuf],
      fun r' hr' => applyEnvelopeSt_preserves attack decay sustain release st b r' hr'⟩,
    ⟨fun r' hr' => normalizeSt_preserves target st b r' hr', ?_, ?_⟩, ?_, ?_⟩
  · intro hz
    simp only [normalizeSt]
    rw [if_neg hz]
    simp [allocBuf]
  · intro hz
    simp only [normalizeSt]
    rw [if_pos hz]
  · intro hpk
    rw [normalizeBufferSt]
    rw [hm, if_neg (not_lt.mpr hpk)]
  · intro hpk i hi
    rw [normalizeBufferSt]
    rw [hm, if_pos hpk]
    rw [List.foldl_cons, List.foldl_nil]
    rw [scaleLoop_store, readBuf, listGetD_set_self, if_pos hb, List.range_eq_range']
    rw [listScaleFold _ (lenBuf st b) 0 _ i,
      if_pos ⟨Nat.zero_le i, by simpa [lenBuf] using hi⟩, readBuf]

/-- Witness for C9's amended frame conditions on the two-buffer store
`[[2], [1]]` with input buffer 0. -/
theorem bufferDeriving_allocation_witness :
    (0 : ℕ) < ([[(2 : ℚ)], [1]] : Store).length ∧
    (lowpassSt 3 [[(2 : ℚ)], [1]] 0 440 44100).2 = 2 ∧
    (lowpassSt 3 [[(2 : ℚ)], [1]] 0 440 44100).1.getD 0 [] = [2] ∧
    (normalizeSt [[(2 : ℚ)], [1]] 0 (19/20)).2 = 2 ∧
    (1 < peak (([[(2 : ℚ)], [1]] : Store).getD 0 []) →
      readBuf (normalizeBufferSt [[(2 : ℚ)], [1]] [0]) 0 0 =
        readBuf [[(2 : ℚ)], [1]] 0 0 * ((99/100) / peak (([[(2 : ℚ)], [1]] : Store).getD 0 []))) := by
  have h := bufferDeriving_allocation 3 440 44100 (19/20) 0 0 0 0
    [[(2 : ℚ)], [1]] 0 (by norm_num)
  refine ⟨by norm_num, h.1.1, ?_, ?_, ?_⟩
  · rw [h.1.2 0 (by norm_num)]
    rfl
  · apply h.2.2.1.2.1
    norm_num [peak]
  · intro hpk
    exact h.2.2.2.2 hpk 0 (by norm_num [lenBuf])

/-! ### ADSR envelope lemmas -/

lemma adsrAmp_eq_attack {len : ℕ} {attack decay sustain release : ℚ} {i : ℕ}
    (h : (i : ℤ) < stageSamples attack) :
    adsrAmp len attack decay sustain release i =
      (i : ℚ) / ((stageSamples attack : ℤ) : ℚ) := by
  simp only [adsrAmp]
  rw [if_pos h]

lemma adsrAmp_eq_decay {len : ℕ} {attack decay sustain release : ℚ} {i : ℕ}
    (h1 : ¬ (i : ℤ) < stageSamples attack)
    (h2 : (i : ℤ) < stageSamples attack + stageSamples decay) :
    adsrAmp len attack decay sustain release i =
      1 - (1 - sustain) * ((i : ℚ) - ((stageSamples attack : ℤ) : ℚ)) /
        ((stageSamples decay : ℤ) : ℚ) := by
  simp only [adsrAmp]
  rw [if_neg h1, if_pos h2]

lemma adsrAmp_eq_sustain {len : ℕ} {attack decay sustain release : ℚ} {i : ℕ}
    (h1 : ¬ (i : ℤ) < stageSamples attack)
    (h2 : ¬ (i : ℤ) < stageSamples attack + stageSamples decay)
    (h3 : (i : ℤ) < stageSamples attack + stageSamples decay +
      ((len : ℤ) - stageSamples attack - stageSamples decay - stageSamples release)) :
    adsrAmp len attack decay sustain release i = sustain := by
  simp only [adsrAmp]
  rw [if_neg h1, if_neg h2, if_pos h3]

lemma adsrAmp_eq_release {len : ℕ} {attack decay sustain release : ℚ} {i : ℕ}
    (h1 : ¬ (i : ℤ) < stageSamples attack)
    (h2 : ¬ (i : ℤ) < stageSamples attack + stageSamples decay)
    (h3 : ¬ (i : ℤ) < stageSamples attack + stageSamples decay +
      ((len : ℤ) - stageSamples attack - stageSamples decay - stageSamples release)) :
    adsrAmp len attack decay sustain release i =
      sustain * (1 - ((i : ℚ) - ((stageSamples attack : ℤ) : ℚ) -
        ((stageSamples decay : ℤ) : ℚ) -
        (((len : ℤ) - stageSamples attack - stageSamples decay -
          stageSamples release : ℤ) : ℚ)) / ((stageSamples release : ℤ) : ℚ)) := by
  simp only [adsrAmp]
  rw [if_neg h1, if_neg h2, if_neg h3]

lemma adsrAmp_nonneg (len : ℕ) (attack decay sustain release : ℚ)
    (hs0 : 0 ≤ sustain) (hs1 : sustain ≤ 1)
    (haS : 0 < stageSamples attack) (hdS : 0 < stageSamples decay)
    (hrS : 0 < stageSamples release)
    (i : ℕ) (hi : i < len) :
    0 ≤ adsrAmp len attack decay sustain release i := by
  have haQ : (0 : ℚ) < ((stageSamples attack : ℤ) : ℚ) := by exact_mod_cast haS
  have hdQ : (0 : ℚ) < ((stageSamples decay : ℤ) : ℚ) := by exact_mod_cast hdS
  have hrQ : (0 : ℚ) < ((stageSamples release : ℤ) : ℚ) := by exact_mod_cast hrS
  by_cases c1 : (i : ℤ) < stageSamples attack
  · rw [adsrAmp_eq_attack c1]
    positivity
  · by_cases c2 : (i : ℤ) < stageSamples attack + stageSamples decay
    · rw [adsrAmp_eq_decay c1 c2]
      have h1Q : ((stageSamples attack : ℤ) : ℚ) ≤ (i : ℚ) := by
        push_neg at c1
        exact_mod_cast c1
      have h2Q : (i : ℚ) < ((stageSamples attack : ℤ) : ℚ) +
          ((stageSamples decay : ℤ) : ℚ) := by
        exact_mod_cast c2
      have hu0 : 0 ≤ ((i : ℚ) - ((stageSamples attack : ℤ) : ℚ)) /
          ((stageSamples decay : ℤ) : ℚ) :=
        div_nonneg (by linarith) hdQ.le
      have hu1 : ((i : ℚ) - ((stageSamples attack : ℤ) : ℚ)) /
          ((stageSamples decay : ℤ) : ℚ) ≤ 1 :=
        (div_le_one hdQ).mpr (by linarith)
      have := mul_le_of_le_one_right (sub_nonneg.mpr hs1) hu1
      have h2 := mul_nonneg (sub_nonneg.mpr hs1) hu0
      rw [mul_div_assoc]
      linarith
    · by_cases c3 : (i : ℤ) < stageSamples attack + stageSamples decay +
          ((len : ℤ) - stageSamples attack - stageSamples decay - stageSamples release)
      · rw [adsrAmp_eq_sustain c1 c2 c3]
        exact hs0
      · rw [adsrAmp_eq_release c1 c2 c3]
        have hkZ : stageSamples attack + stageSamples decay +
            ((len : ℤ) - stageSamples attack - stageSamples decay - stageSamples release)
            ≤ (i : ℤ) := by omega
        have hiZ : (i : ℤ) < (len : ℤ) := by exact_mod_cast hi
        have hklow : (0 : ℚ) ≤ (i : ℚ) - ((stageSamples attack : ℤ) : ℚ) -
            ((stageSamples decay : ℤ) : ℚ) -
            (((len : ℤ) - stageSamples attack - stageSamples decay -
              stageSamples release : ℤ) : ℚ) := by
          have : ((stageSamples attack + stageSamples decay + ((len : ℤ) - stageSamples attack - stageSamples decay - stageSamples release) : ℤ) : ℚ) ≤ (((i : ℕ) : ℤ) : ℚ) := by exact_mod_cast hkZ
          push_cast at this ⊢
          linarith
        have hkhigh : (i : ℚ) - ((stageSamples attack : ℤ) : ℚ) -
            ((stageSamples decay : ℤ) : ℚ) -
            (((len : ℤ) - stageSamples attack - stageSamples decay -
              stageSamples release : ℤ) : ℚ) < ((stageSamples release : ℤ) : ℚ) := by
          have hz : (i : ℤ) - stageSamples attack - stageSamples decay -
              ((len : ℤ) - stageSamples attack - stageSamples decay - stageSamples release)
              < stageSamples release := by omega
          have : ((((i : ℕ) : ℤ) - stageSamples attack - stageSamples decay - ((len : ℤ) - stageSamples attack - stageSamples decay - stageSamples release) : ℤ) : ℚ) < ((stageSamples release : ℤ) : ℚ) := by exact_mod_cast hz
          push_cast at this ⊢
          linarith
        have hfrac : ((i : ℚ) - ((stageSamples attack : ℤ) : ℚ) -
            ((stageSamples decay : ℤ) : ℚ) -
            (((len : ℤ) - stageSamples attack - stageSamples decay -
              stageSamples release : ℤ) : ℚ)) / ((stageSamples release : ℤ) : ℚ) ≤ 1 :=
          (div_le_one hrQ).mpr (by linarith)
        exact mul_nonneg hs0 (by linarith)

/-- Adjacent samples of the envelope curve differ by at most the largest
per-stage step: `1/attackSamples` in the attack, `(1-sustain)/decaySamples`
in the decay (also at the attack→decay and decay→sustain boundaries,
up to the attack step), and `sustain/releaseSamples` in the release; the
sustain hold and the sustain→release boundary are exactly flat. -/
lemma adsrAmp_step_bound (len : ℕ) (attack decay sustain release : ℚ)
    (hs0 : 0 ≤ sustain) (hs1 : sustain ≤ 1)
    (haS : 0 < stageSamples attack) (hdS : 0 < stageSamples decay)
    (hrS : 0 < stageSamples release)
    (hsum : stageSamples attack + stageSamples decay + stageSamples release ≤ (len : ℤ))
    (i : ℕ) (h1 : 1 ≤ i) (h2 : i < len) :
    |adsrAmp len attack decay sustain release i -
        adsrAmp len attack decay sustain release (i - 1)| ≤
      max (1 / ((stageSamples attack : ℤ) : ℚ))
        (max ((1 - sustain) / ((stageSamples decay : ℤ) : ℚ))
          (sustain / ((stageSamples release : ℤ) : ℚ))) := by
  have haQ : (0 : ℚ) < ((stageSamples attack : ℤ) : ℚ) := by exact_mod_cast haS
  have hdQ : (0 : ℚ) < ((stageSamples decay : ℤ) : ℚ) := by exact_mod_cast hdS
  have hrQ : (0 : ℚ) < ((stageSamples release : ℤ) : ℚ) := by exact_mod_cast hrS
  have hi1Z : ((i - 1 : ℕ) : ℤ) = (i : ℤ) - 1 := by omega
  have hi1Q : ((i - 1 : ℕ) : ℚ) = (i : ℚ) - 1 := by
    have h' : i - 1 + 1 = i := by omega
    calc ((i - 1 : ℕ) : ℚ) = ((i - 1 + 1 : ℕ) : ℚ) - 1 := by push_cast; ring
      _ = (i : ℚ) - 1 := by rw [h']
  rcases (show (i : ℤ) < stageSamples attack ∨ (i : ℤ) = stageSamples attack ∨
      (stageSamples attack < (i : ℤ) ∧
        (i : ℤ) < stageSamples attack + stageSamples decay) ∨
      (i : ℤ) = stageSamples attack + stageSamples decay ∨
      (stageSamples attack + stageSamples decay < (i : ℤ) ∧
        (i : ℤ) < stageSamples attack + stageSamples decay +
          ((len : ℤ) - stageSamples attack - stageSamples decay - stageSamples release)) ∨
      ((i : ℤ) = stageSamples attack + stageSamples decay +
          ((len : ℤ) - stageSamples attack - stageSamples decay - stageSamples release) ∧
        stageSamples attack + stageSamples decay < (i : ℤ)) ∨
      stageSamples attack + stageSamples decay +
          ((len : ℤ) - stageSamples attack - stageSamples decay - stageSamples release) <
        (i : ℤ)
      from by omega) with c | c | c | c | c | c | c
  · -- both samples inside the attack ramp
    rw [adsrAmp_eq_attack c,
      adsrAmp_eq_attack (show ((i - 1 : ℕ) : ℤ) < stageSamples attack by omega)]
    have hd : (i : ℚ) / ((stageSamples attack : ℤ) : ℚ) -
        ((i - 1 : ℕ) : ℚ) / ((stageSamples attack : ℤ) : ℚ) =
        1 / ((stageSamples attack : ℤ) : ℚ) := by
      rw [hi1Q]
      field_simp
    rw [hd, abs_of_nonneg (one_div_nonneg.mpr haQ.le)]
    exact le_max_left _ _
  · -- attack → decay boundary
    rw [adsrAmp_eq_decay (not_lt.mpr (by omega)) (by omega),
      adsrAmp_eq_attack (show ((i - 1 : ℕ) : ℤ) < stageSamples attack by omega)]
    have hiq : (i : ℚ) = ((stageSamples attack : ℤ) : ℚ) := by exact_mod_cast c
    have hd : (1 - (1 - sustain) * ((i : ℚ) - ((stageSamples attack : ℤ) : ℚ)) /
          ((stageSamples decay : ℤ) : ℚ)) -
        ((i - 1 : ℕ) : ℚ) / ((stageSamples attack : ℤ) : ℚ) =
        1 / ((stageSamples attack : ℤ) : ℚ) := by
      rw [hi1Q, hiq]
      field_simp
    rw [hd, abs_of_nonneg (one_div_nonneg.mpr haQ.le)]
    exact le_max_left _ _
  · -- both samples inside the decay ramp
    rw [adsrAmp_eq_decay (not_lt.mpr (by omega)) c.2,
      adsrAmp_eq_decay (i := i - 1) (not_lt.mpr (by omega)) (by omega)]
    have hd : (1 - (1 - sustain) * ((i : ℚ) - ((stageSamples attack : ℤ) : ℚ)) /
          ((stageSamples decay : ℤ) : ℚ)) -
        (1 - (1 - sustain) * (((i - 1 : ℕ) : ℚ) - ((stageSamples attack : ℤ) : ℚ)) /
          ((stageSamples decay : ℤ) : ℚ)) =
        -((1 - sustain) / ((stageSamples decay : ℤ) : ℚ)) := by
      rw [hi1Q]
      field_simp
      ring
    rw [hd, abs_neg, abs_of_nonneg (div_nonneg (by linarith) hdQ.le)]
    exact le_trans (le_max_left _ _) (le_max_right _ _)
  · -- decay → sustain boundary (the sustain hold may be empty)
    have hiq : (i : ℚ) = ((stageSamples attack : ℤ) : ℚ) +
        ((stageSamples decay : ℤ) : ℚ) := by exact_mod_cast c
    have hampi : adsrAmp len attack decay sustain release i = sustain := by
      by_cases hsS : 0 < (len : ℤ) - stageSamples attack - stageSamples decay -
          stageSamples release
      · exact adsrAmp_eq_sustain (not_lt.mpr (by omega)) (not_lt.mpr (by omega)) (by omega)
      · have hz : (len : ℤ) - stageSamples attack - stageSamples decay -
            stageSamples release = 0 := by omega
        rw [adsrAmp_eq_release (not_lt.mpr (by omega)) (not_lt.mpr (by omega))
          (not_lt.mpr (by omega))]
        have hsSQ : (((len : ℤ) - stageSamples attack - stageSamples decay -
            stageSamples release : ℤ) : ℚ) = 0 := by exact_mod_cast hz
        rw [hsSQ, hiq]
        have hnum : ((stageSamples attack : ℤ) : ℚ) + ((stageSamples decay : ℤ) : ℚ) -
            ((stageSamples attack : ℤ) : ℚ) - ((stageSamples decay : ℤ) : ℚ) - 0 = 0 := by
          ring
        rw [hnum, zero_div]
        ring
    rw [hampi, adsrAmp_eq_decay (i := i - 1) (not_lt.mpr (by omega)) (by omega)]
    have hd : sustain -
        (1 - (1 - sustain) * (((i - 1 : ℕ) : ℚ) - ((stageSamples attack : ℤ) : ℚ)) /
          ((stageSamples decay : ℤ) : ℚ)) =
        -((1 - sustain) / ((stageSamples decay : ℤ) : ℚ)) := by
      rw [hi1Q, hiq]
      field_simp
      ring
    rw [hd, abs_neg, abs_of_nonneg (div_nonneg (by linarith) hdQ.le)]
    exact le_trans (le_max_left _ _) (le_max_right _ _)
  · -- both samples inside the sustain hold
    rw [adsrAmp_eq_sustain (not_lt.mpr (by omega)) (not_lt.mpr (by omega)) c.2,
      adsrAmp_eq_sustain (i := i - 1) (not_lt.mpr (by omega)) (not_lt.mpr (by omega))
        (by omega)]
    rw [sub_self, abs_zero]
    exact le_trans (one_div_nonneg.mpr haQ.le) (le_max_left _ _)
  · -- sustain → release boundary: exactly flat
    rw [adsrAmp_eq_release (not_lt.mpr (by omega)) (not_lt.mpr (by omega))
        (not_lt.mpr (by omega)),
      adsrAmp_eq_sustain (i := i - 1) (not_lt.mpr (by omega)) (not_lt.mpr (by omega))
        (by omega)]
    have hiq : (i : ℚ) = ((stageSamples attack : ℤ) : ℚ) +
        ((stageSamples decay : ℤ) : ℚ) +
        (((len : ℤ) - stageSamples attack - stageSamples decay -
          stageSamples release : ℤ) : ℚ) := by exact_mod_cast c.1
    have hd : sustain * (1 - ((i : ℚ) - ((stageSamples attack : ℤ) : ℚ) -
          ((stageSamples decay : ℤ) : ℚ) -
          (((len : ℤ) - stageSamples attack - stageSamples decay -
            stageSamples release : ℤ) : ℚ)) / ((stageSamples release : ℤ) : ℚ)) -
        sustain = 0 := by
      rw [hiq]
      have hnum : ((stageSamples attack : ℤ) : ℚ) + ((stageSamples decay : ℤ) : ℚ) +
          (((len : ℤ) - stageSamples attack - stageSamples decay -
            stageSamples release : ℤ) : ℚ) - ((stageSamples attack : ℤ) : ℚ) -
          ((stageSamples decay : ℤ) : ℚ) -
          (((len : ℤ) - stageSamples attack - stageSamples decay -
            stageSamples release : ℤ) : ℚ) = 0 := by ring
      rw [hnum, zero_div]
      ring
    rw [hd, abs_zero]
    exact le_trans (one_div_nonneg.mpr haQ.le) (le_max_left _ _)
  · -- both samples inside the release ramp
    rw [adsrAmp_eq_release (not_lt.mpr (by omega)) (not_lt.mpr (by omega))
        (not_lt.mpr (by omega)),
      adsrAmp_eq_release (i := i - 1) (not_lt.mpr (by omega)) (not_lt.mpr (by omega))
        (not_lt.mpr (by omega))]
    have hd : sustain * (1 - ((i : ℚ) - ((stageSamples attack : ℤ) : ℚ) -
          ((stageSamples decay : ℤ) : ℚ) -
          (((len : ℤ) - stageSamples attack - stageSamples decay -
            stageSamples release : ℤ) : ℚ)) / ((stageSamples release : ℤ) : ℚ)) -
        sustain * (1 - (((i - 1 : ℕ) : ℚ) - ((stageSamples attack : ℤ) : ℚ) -
          ((stageSamples decay : ℤ) : ℚ) -
          (((len : ℤ) - stageSamples attack - stageSamples decay -
            stageSamples release : ℤ) : ℚ)) / ((stageSamples release : ℤ) : ℚ)) =
        -(sustain / ((stageSamples release : ℤ) : ℚ)) := by
      rw [hi1Q]
      field_simp
      ring
    rw [hd, abs_neg, abs_of_nonneg (div_nonneg hs0 hrQ.le)]
    exact le_trans (le_max_right _ _) (le_max_right _ _)

/-- C1: for valid ADSR parameters (`sustain ∈ [0,1]`, at least one sample
per ramp stage, `attack + decay + release ≤ duration`) applied to a
buffer of `⌊duration × SAMPLE_RATE⌋` samples, `applyEnvelope` returns a
buffer of exactly the same sample count whose samples are the input
multiplied by the envelope curve: a linear ramp `0 → 1` over the attack
samples, a linear ramp `1 → sustain` over the decay samples, a flat hold
at `sustain` whose length absorbs the rounding remainder (the four stage
lengths sum exactly to the sample count), and a linear ramp
`sustain → 0` over the release samples — and no sample-to-sample jump of
the curve exceeds `max(1/attackSamples, (1-sustain)/decaySamples,
sustain/releaseSamples)`, the natural per-stage epsilon. -/
theorem applyEnvelope_adsr (buffer : List ℚ)
    (attack decay sustain release duration : ℚ)
    (hs0 : 0 ≤ sustain) (hs1 : sustain ≤ 1)
    (hsum : attack + decay + release ≤ duration)
    (hlen : (buffer.length : ℤ) = ⌊duration * SAMPLE_RATE⌋)
    (haS : 0 < stageSamples attack) (hdS : 0 < stageSamples decay)
    (hrS : 0 < stageSamples release) :
    (applyEnvelope buffer attack decay sustain release duration).length = buffer.length ∧
    (0 ≤ (buffer.length : ℤ) - stageSamples attack - stageSamples decay -
        stageSamples release ∧
      stageSamples attack + stageSamples decay +
        ((buffer.length : ℤ) - stageSamples attack - stageSamples decay -
          stageSamples release) + stageSamples release = (buffer.length : ℤ)) ∧
    (∀ i : ℕ, i < buffer.length →
      (applyEnvelope buffer attack decay sustain release duration).getD i 0 =
        buffer.getD i 0 * adsrAmp buffer.length attack decay sustain release i ∧
      0 ≤ adsrAmp buffer.length attack decay sustain release i) ∧
    (∀ i : ℕ, (i : ℤ) < stageSamples attack →
      adsrAmp buffer.length attack decay sustain release i =
        (i : ℚ) / ((stageSamples attack : ℤ) : ℚ)) ∧
    (∀ i : ℕ, stageSamples attack ≤ (i : ℤ) →
      (i : ℤ) < stageSamples attack + stageSamples decay →
      adsrAmp buffer.length attack decay sustain release i =
        1 - (1 - sustain) * ((i : ℚ) - ((stageSamples attack : ℤ) : ℚ)) /
          ((stageSamples decay : ℤ) : ℚ)) ∧
    (∀ i : ℕ, stageSamples attack + stageSamples decay ≤ (i : ℤ) →
      (i : ℤ) < (buffer.length : ℤ) - stageSamples release →
      adsrAmp buffer.length attack decay sustain release i = sustain) ∧
    (∀ i : ℕ, (buffer.length : ℤ) - stageSamples release ≤ (i : ℤ) →
      i < buffer.length →
      adsrAmp buffer.length attack decay sustain release i =
        sustain * (1 - ((i : ℚ) - ((buffer.length : ℚ) -
          ((stageSamples release : ℤ) : ℚ))) / ((stageSamples release : ℤ) : ℚ))) ∧
    (∀ i : ℕ, 1 ≤ i → i < buffer.length →
      |adsrAmp buffer.length attack decay sustain release i -
          adsrAmp buffer.length attack decay sustain release (i - 1)| ≤
        max (1 / ((stageSamples attack : ℤ) : ℚ))
          (max ((1 - sustain) / ((stageSamples decay : ℤ) : ℚ))
            (sustain / ((stageSamples release : ℤ) : ℚ)))) := by
  have hsumZ : stageSamples attack + stageSamples decay + stageSamples release ≤
      (buffer.length : ℤ) := by
    have h1 : stageSamples attack + stageSamples decay + stageSamples release ≤
        ⌊(attack + decay + release) * SAMPLE_RATE⌋ := by
      rw [Int.le_floor]
      push_cast
      have ha := Int.floor_le (attack * SAMPLE_RATE)
      have hd := Int.floor_le (decay * SAMPLE_RATE)
      have hr := Int.floor_le (release * SAMPLE_RATE)
      simp only [stageSamples]
      ring_nf
      ring_nf at ha hd hr
      linarith
    have h2 : ⌊(attack + decay + release) * SAMPLE_RATE⌋ ≤ ⌊duration * SAMPLE_RATE⌋ :=
      Int.floor_le_floor (mul_le_mul_of_nonneg_right hsum (by norm_num [SAMPLE_RATE]))
    rw [hlen]
    exact le_trans h1 h2
  refine ⟨by simp [applyEnvelope], ⟨by omega, by ring⟩, ?_, ?_, ?_, ?_, ?_, ?_⟩
  · intro i hi
    refine ⟨?_, adsrAmp_nonneg buffer.length attack decay sustain release
      hs0 hs1 haS hdS hrS i hi⟩
    rw [applyEnvelope, getD_range_map buffer.length i _ 0 hi,
      max_eq_right (adsrAmp_nonneg buffer.length attack decay sustain release
        hs0 hs1 haS hdS hrS i hi)]
  · intro i hi
    exact adsrAmp_eq_attack hi
  · intro i h1 h2
    exact adsrAmp_eq_decay (not_lt.mpr h1) h2
  · intro i h1 h2
    exact adsrAmp_eq_sustain (not_lt.mpr (by omega)) (not_lt.mpr h1) (by omega)
  · intro i h1 h2
    rw [adsrAmp_eq_release (not_lt.mpr (by omega)) (not_lt.mpr (by omega))
      (not_lt.mpr (by omega))]
    have hc : (i : ℚ) - ((stageSamples attack : ℤ) : ℚ) -
        ((stageSamples decay : ℤ) : ℚ) -
        (((buffer.length : ℤ) - stageSamples attack - stageSamples decay -
          stageSamples release : ℤ) : ℚ) =
        (i : ℚ) - ((buffer.length : ℚ) - ((stageSamples release : ℤ) : ℚ)) := by
      push_cast
      ring
    rw [hc]
  · intro i h1 h2
    exact adsrAmp_step_bound buffer.length attack decay sustain release
      hs0 hs1 haS hdS hrS hsumZ i h1 h2

/-- Witness for C1: a five-sample buffer with one attack, one decay and
one release sample (`attack = decay = release = 1/44100` s,
`duration = 5/44100` s, `sustain = 1/2`): the output keeps all 5
samples, the sustain hold has the 2 leftover samples, and sample 2 sits
at the sustain level 1/2. -/
theorem applyEnvelope_adsr_witness :
    ((0 : ℚ) ≤ 1/2 ∧ (1 : ℚ)/44100 + 1/44100 + 1/44100 ≤ 5/44100) ∧
    (applyEnvelope [1, 1, 1, 1, 1] (1/44100) (1/44100) (1/2) (1/44100)
      (5/44100)).length = 5 ∧
    adsrAmp 5 (1/44100) (1/44100) (1/2) (1/44100) 2 = 1/2 := by
  have h := applyEnvelope_adsr [1, 1, 1, 1, 1] (1/44100) (1/44100) (1/2) (1/44100)
    (5/44100) (by norm_num) (by norm_num) (by norm_num)
    (by norm_num [SAMPLE_RATE])
    (by norm_num [stageSamples, SAMPLE_RATE])
    (by norm_num [stageSamples, SAMPLE_RATE])
    (by norm_num [stageSamples, SAMPLE_RATE])
  refine ⟨⟨by norm_num, by norm_num⟩, by simpa using h.1, ?_⟩
  have h6 := h.2.2.2.2.2.1 2 (by norm_num [stageSamples, SAMPLE_RATE])
    (by norm_num [stageSamples, SAMPLE_RATE])
  simpa using h6

/-- Witness for C2's amended claim on a 2-word caption over 300 frames
with the VideoRenderer's default 50 ms/word text speed. -/
theorem caption_word_reveal_witness :
    ((0 : ℕ) < 2 ∧ (0 : ℕ) < 300 ∧ (0 : ℚ) < 50) ∧
    0 < visibleWordCount 2 0 300 ∧
    visibleWordCount 2 10 300 ≤ visibleWordCount 2 20 300 ∧
    visibleWordCount 2 300 300 = 2 ∧
    vrVisibleWords 100 50 2 = 2 := by
  have h := caption_word_reveal 2 300 50 (by norm_num) (by norm_num) (by norm_num)
  exact ⟨⟨by norm_num, by norm_num, by norm_num⟩, h.2.1,
    h.2.2.1 10 20 (by norm_num), h.2.2.2.1 300 le_rfl,
    h.2.2.2.2.2.2 100 (by norm_num)⟩

end ContentFactory
